import Mathlib

/-!
# quickbooks-go: pagination, optimistic update and fault parsing

A shallow embedding of `payment_method.go`, `journal.go`, `exchangerate.go`
and `errors.go`, and the properties of the full-drain accessors, of the update
operations and of `parseFailure` proved on it.

Conventions of the embedding.

* Go's `int` is `Int`.  The loop counter of the full-drain accessors is
  compared with `TotalCount` before every step, so the sum
  `i + QueryPageSize` leaves the 64-bit range only in a run in which a
  response carries a `TotalCount` within `QueryPageSize` of `2^63`.
* `QueryPageSize` is declared outside these files: it is a parameter.
* A Go slice is a `List` of its elements up to its length; the nil slice and
  the empty slice are both `[]`, except in `Failure`, whose JSON text tells
  them apart.  Where a decoder fills a slice a second time, the elements its
  backing array holds beyond its length are kept next to it.
* The transport methods of `Client` (`query`, `get`, `post`) are declared
  outside these files: they are parameters.  `query` receives the content of
  the response struct the caller passes by pointer and hands back its content
  after decoding, so every way of filling that struct is covered; a state is
  threaded through the calls, which holds the transport and the memory behind
  the pointers of the records, so a backend may answer differently from call
  to call and a call may write to memory that records returned earlier point
  to.
* The element of a record slice is the struct as the slice holds it.  For the
  full-drain accessors a pointer field is an address into the memory of the
  state (`StoredJournalEntry`); copying a struct copies the address.  The
  update operations copy no record, and there a pointer field is an `Option`
  of its pointee (`JournalEntry`).
* `make` panics for a capacity that is negative or above a limit that depends
  on the element size and the machine: the limit is a parameter.
* Every run records the calls it issues, in order; a transport that writes
  down the calls it receives ends with the same list (`drainAll_recorded`,
  `UpdatePaymentMethod_recorded` and their siblings).
* A loop that need not terminate takes an iteration budget; a run that uses
  it up ends as `pending`.
* A response body is a `String`.  `json.Unmarshal` and `json.Marshal` of the
  Go standard library are embedded as far as the `Failure` struct needs them;
  `Date`, the type of `Failure.Time`, is declared outside these files and its
  JSON coding is a parameter.
-/

namespace Quickbooks

/-! ## Go primitives -/

/-- Decimal text of an integer, as `strconv.Itoa` prints it. -/
def Itoa : Int → String
  | Int.ofNat n => Nat.repr n
  | Int.negSucc n => "-" ++ Nat.repr (n + 1)

/-! ## The query response struct and the query transport -/

/-- The anonymous struct `resp.QueryResponse` of the `Find…` accessors.  The
entity slice (`PaymentMethods`, `JournalEntry`, `ExchangeRates`) is held as
`Records`, its elements up to its length, and `Spare`, the elements its
backing array holds beyond its length; the accessors read `Records` only, a
decoder that fills the slice again also meets `Spare`. -/
structure QueryResponse (R : Type) where
  Records : List R
  Spare : List R
  MaxResults : Int
  StartPosition : Int
  TotalCount : Int
deriving DecidableEq

/-- The zero value of `resp`, as `var resp struct{…}` declares it. -/
def QueryResponse.zero {R : Type} : QueryResponse R :=
  { Records := [], Spare := [], MaxResults := 0, StartPosition := 0, TotalCount := 0 }

/-- The method `c.query(params, query, &resp)`: from the state, the request
parameters, the query text and the current content of `resp` it gives the next
state and either an error or the content of `resp` after decoding.  The state
`σ` is everything the call may read and write besides the fields of `resp`:
the transport, and the memory behind the pointers that the records of `resp`
hold. -/
structure QueryClient (σ Prm E R : Type) where
  query : σ → Prm → String → QueryResponse R → σ × Except E (QueryResponse R)

/-- One issued query call: its text and what came back. -/
abbrev QueryCall (E R : Type) := String × Except E (QueryResponse R)

/-- How an accessor run ends: `returned rs` is `return rs, nil`, `failed e` is
`return nil, e`, `panicked` is a run-time panic, `pending` is a loop that is
still running when the iteration budget is used up. -/
inductive Outcome (E R : Type) where
  | returned (rs : List R)
  | failed (e : E)
  | panicked
  | pending
deriving DecidableEq

/-- A run of an accessor: outcome, calls issued in order, final state.  The
records of a `returned` outcome are the structs the result slice holds; what a
pointer inside them points to is read in the final state. -/
structure Run (σ E R : Type) where
  outcome : Outcome E R
  calls : List (QueryCall E R)
  state : σ

/-- Text of the page query built in the loop body:
`pagePrefix + strconv.Itoa(i+1) + " MAXRESULTS " + strconv.Itoa(QueryPageSize)`. -/
def pageQuery (pagePrefix : String) (QueryPageSize i : Int) : String :=
  pagePrefix ++ Itoa (i + 1) ++ " MAXRESULTS " ++ Itoa QueryPageSize

/-- The loop `for i := 0; i < resp.QueryResponse.TotalCount; i += QueryPageSize`
of the full-drain accessors, started at counter `i` with response struct
`resp` and accumulator `acc`.  The bound is read from `resp` at every test;
`append` copies the structs of `resp.Records` into the accumulator (a pointer
field is copied as a pointer); `budget` bounds the number of iterations. -/
def drainLoop {σ Prm E R : Type} (c : QueryClient σ Prm E R) (params : Prm)
    (pagePrefix : String) (QueryPageSize : Int) :
    Nat → Int → QueryResponse R → List R → σ → Run σ E R
  | budget, i, resp, acc, s =>
    if i < resp.TotalCount then
      match budget with
      | 0 => { outcome := .pending, calls := [], state := s }
      | budget + 1 =>
        let query := pageQuery pagePrefix QueryPageSize i
        match c.query s params query resp with
        | (s1, .error err) =>
          { outcome := .failed err, calls := [(query, .error err)], state := s1 }
        | (s1, .ok resp1) =>
          let rest := drainLoop c params pagePrefix QueryPageSize budget
            (i + QueryPageSize) resp1 (acc ++ resp1.Records) s1
          { outcome := rest.outcome, calls := (query, .ok resp1) :: rest.calls,
            state := rest.state }
    else { outcome := .returned acc, calls := [], state := s }

/-- The body shared by `FindPaymentMethods`, `FindJournalEntries` and
`FindExchangeRates`: count query, the `TotalCount == 0` return, `make` with
capacity `TotalCount`, then the page loop.  `make` panics for a negative
capacity and for one above `capLimit`, the largest capacity the run time
allocates for the element type (at most `maxAlloc` divided by the element
size). -/
def drainAll {σ Prm E R : Type} (countQuery pagePrefix : String)
    (QueryPageSize capLimit : Int) (c : QueryClient σ Prm E R) (params : Prm)
    (budget : Nat) (s : σ) : Run σ E R :=
  match c.query s params countQuery QueryResponse.zero with
  | (s1, .error err) =>
    { outcome := .failed err, calls := [(countQuery, .error err)], state := s1 }
  | (s1, .ok resp) =>
    if resp.TotalCount = 0 then
      { outcome := .returned [], calls := [(countQuery, .ok resp)], state := s1 }
    else if resp.TotalCount < 0 ∨ capLimit < resp.TotalCount then
      { outcome := .panicked, calls := [(countQuery, .ok resp)], state := s1 }
    else
      let rest := drainLoop c params pagePrefix QueryPageSize budget 0 resp [] s1
      { outcome := rest.outcome, calls := (countQuery, .ok resp) :: rest.calls,
        state := rest.state }

/-- `FindPaymentMethods` of `payment_method.go`.  `R` is the element type of
the slices (`PaymentMethod` in the source), held as the struct itself. -/
def FindPaymentMethods {σ Prm E R : Type} (QueryPageSize capLimit : Int)
    (c : QueryClient σ Prm E R) (params : Prm) (budget : Nat) (s : σ) : Run σ E R :=
  drainAll "SELECT COUNT(*) FROM PaymentMethod"
    "SELECT * FROM PaymentMethod ORDERBY Id STARTPOSITION " QueryPageSize capLimit c params
    budget s

/-- `FindJournalEntries` of `journal.go`.  `R` is the element type of the
slices (`JournalEntry` in the source), held as the struct itself: its pointer
fields are addresses, so an element appended to the result shares its pointees
with the element of `resp` it was copied from. -/
def FindJournalEntries {σ Prm E R : Type} (QueryPageSize capLimit : Int)
    (c : QueryClient σ Prm E R) (params : Prm) (budget : Nat) (s : σ) : Run σ E R :=
  drainAll "SELECT COUNT(*) FROM JournalEntry"
    "SELECT * FROM JournalEntry ORDERBY Id STARTPOSITION " QueryPageSize capLimit c params
    budget s

/-- `FindExchangeRates` of `exchangerate.go`; `R` is the element type of the
slices (`ExchangeRate` in the source). -/
def FindExchangeRates {σ Prm E R : Type} (QueryPageSize capLimit : Int)
    (c : QueryClient σ Prm E R) (params : Prm) (budget : Nat) (s : σ) : Run σ E R :=
  drainAll "SELECT COUNT(*) FROM ExchangeRate"
    "SELECT * FROM ExchangeRate ORDERBY Id STARTPOSITION " QueryPageSize capLimit c params
    budget s

/-- `FindPaymentMethodsByPage` / `FindExchangeRatesByPage`: one page query into
a fresh response struct; the result is the record array of that struct. -/
def findByPage {σ Prm E R : Type} (pagePrefix : String)
    (c : QueryClient σ Prm E R) (params : Prm) (startPosition pageSize : Int) (s : σ) :
    σ × Except E (List R) :=
  let query := pagePrefix ++ Itoa startPosition ++ " MAXRESULTS " ++ Itoa pageSize
  match c.query s params query QueryResponse.zero with
  | (s1, .error err) => (s1, .error err)
  | (s1, .ok resp) => (s1, .ok resp.Records)

/-- The page calls of a run: every call after the count call. -/
def Run.pageCalls {σ E R : Type} (r : Run σ E R) : List (QueryCall E R) :=
  r.calls.tail

/-- The record arrays held by the response struct after each successful call
of a list of calls, concatenated in call order. -/
def recordsAfter {E R : Type} : List (QueryCall E R) → List R
  | [] => []
  | (_, .ok resp) :: rest => resp.Records ++ recordsAfter rest
  | (_, .error _) :: rest => recordsAfter rest

/-- A query client that writes down every call it receives and what it
answered, in order, next to the state of the client it wraps. -/
def recordingQuery {σ Prm E R : Type} (c : QueryClient σ Prm E R) :
    QueryClient (σ × List (QueryCall E R)) Prm E R where
  query := fun st prm q resp =>
    (((c.query st.1 prm q resp).1, st.2 ++ [(q, (c.query st.1 prm q resp).2)]),
      (c.query st.1 prm q resp).2)

/-! ## Decoding a response body into the response struct

`Client.query` is declared outside these files; the backends below answer a
call the way a client built on `encoding/json` does, by decoding the JSON body
into the struct the caller passed by pointer. -/

/-- The members a response body may carry inside its `QueryResponse` object;
`none` is a member that is absent from the body.  `B` is what the body carries
for one element of the record array. -/
structure PageBody (B : Type) where
  Records : Option (List B)
  MaxResults : Option Int
  StartPosition : Option Int
  TotalCount : Option Int
deriving DecidableEq

/-- How one element of the record array is decoded: `zero` is the zero value
of the element type, `into h cur b` decodes the element body `b` into an
element that holds `cur`, in the memory `h` behind the pointers, and gives the
memory and the element afterwards. -/
structure ElementDecoder (H R B : Type) where
  zero : R
  into : H → R → B → H × R

/-- Decoding the elements of a JSON array into a backing array, as
`encoding/json` does for a slice: the i-th element body is decoded into the
element the backing array already holds at index i, and into a zero element
beyond the end of the backing array. -/
def decodeElements {H R B : Type} (d : ElementDecoder H R B) : H → List R → List B → H × List R
  | h, _, [] => (h, [])
  | h, backing, b :: bs =>
    let first := d.into h (backing.headD d.zero) b
    let rest := decodeElements d first.1 backing.tail bs
    (rest.1, first.2 :: rest.2)

/-- Decoding a body into an existing response struct, as `encoding/json` does
for a struct: a member that is absent leaves its field as it was, a number
overwrites its field, an empty array sets the slice to a fresh empty slice,
and a non-empty array is decoded element by element into the backing array
the slice already has; the slice then has the length of the array and its
backing array keeps what it held beyond that length. -/
def decodeInto {H R B : Type} (d : ElementDecoder H R B) (h : H) (resp : QueryResponse R)
    (body : PageBody B) : H × QueryResponse R :=
  match body.Records with
  | none =>
    (h, { Records := resp.Records, Spare := resp.Spare,
          MaxResults := body.MaxResults.getD resp.MaxResults,
          StartPosition := body.StartPosition.getD resp.StartPosition,
          TotalCount := body.TotalCount.getD resp.TotalCount })
  | some [] =>
    (h, { Records := [], Spare := [],
          MaxResults := body.MaxResults.getD resp.MaxResults,
          StartPosition := body.StartPosition.getD resp.StartPosition,
          TotalCount := body.TotalCount.getD resp.TotalCount })
  | some (b :: bs) =>
    let out := decodeElements d h (resp.Records ++ resp.Spare) (b :: bs)
    (out.1, { Records := out.2, Spare := (resp.Records ++ resp.Spare).drop out.2.length,
              MaxResults := body.MaxResults.getD resp.MaxResults,
              StartPosition := body.StartPosition.getD resp.StartPosition,
              TotalCount := body.TotalCount.getD resp.TotalCount })

/-- The decoder of an element that a body carries whole and that holds no
pointer: decoding replaces the element. -/
def wholeDecoder {R : Type} (zero : R) : ElementDecoder Unit R R where
  zero := zero
  into := fun h _ b => (h, b)

/-- A backend that answers its k-th call with the k-th entry of a script (an
error, or a body that is decoded into the caller's struct); calls beyond the
script fail with `fallback`.  The state is the number of calls answered and
the memory behind the pointers. -/
def scriptedClient {H E R B : Type} (d : ElementDecoder H R B)
    (script : List (Except E (PageBody B))) (fallback : E) :
    QueryClient (Nat × H) Unit E R where
  query := fun st _ _ resp =>
    match script[st.1]? with
    | some (.ok body) =>
      ((st.1 + 1, (decodeInto d st.2 resp body).1), .ok (decodeInto d st.2 resp body).2)
    | some (.error err) => ((st.1 + 1, st.2), .error err)
    | none => ((st.1 + 1, st.2), .error fallback)

/-- The records at 1-based positions `start .. start + size - 1` of a list. -/
def window {R : Type} (recs : List R) (start size : Nat) : List R :=
  (recs.drop (start - 1)).take size

/-- A simulated backend holding the records whose bodies are `recs`: it
answers the count query with a body that carries their number as `TotalCount`
and the page query for start position `s` (`1 ≤ s ≤ recs.length`) and page
size `size` with a body that carries the window starting at `s`, the start
position and the page size; any other query fails.  Each body is decoded into
the caller's struct; the state is the memory behind the pointers. -/
def listClient {H R B : Type} (d : ElementDecoder H R B) (countQuery pagePrefix : String)
    (recs : List B) (size : Nat) : QueryClient H Unit String R where
  query := fun h _ q resp =>
    if q = countQuery then
      ((decodeInto d h resp
          { Records := none, MaxResults := none, StartPosition := none,
            TotalCount := some (Int.ofNat recs.length) }).1,
        .ok (decodeInto d h resp
          { Records := none, MaxResults := none, StartPosition := none,
            TotalCount := some (Int.ofNat recs.length) }).2)
    else
      match (List.range recs.length).find?
          (fun (i : Nat) => decide (q = pageQuery pagePrefix (Int.ofNat size) (Int.ofNat i))) with
      | some i =>
        ((decodeInto d h resp
            { Records := some (window recs (i + 1) size), MaxResults := some (Int.ofNat size),
              StartPosition := some (Int.ofNat i + 1), TotalCount := none }).1,
          .ok (decodeInto d h resp
            { Records := some (window recs (i + 1) size), MaxResults := some (Int.ofNat size),
              StartPosition := some (Int.ofNat i + 1), TotalCount := none }).2)
      | none => (h, .error "unknown query")

/-! ## Single-record operations -/

/-- `PaymentMethod` of `payment_method.go`; `M` stands for
`ModificationMetaData`, declared outside these files. -/
structure PaymentMethod (M : Type) where
  MetaData : M
  Id : String
  Name : String
  SyncToken : String
  «Type» : String
  Active : Bool
  Domain : String
  Status : String
deriving DecidableEq

/-- `JournalEntry` of `journal.go` as the create and update operations hold
it: these operations copy no entry, so a pointer field is an `Option` of its
pointee (`none` is the nil pointer) and `Line` is the list of its elements.
`D`, `Ln`, `Ref`, `Tax`, `M` stand for `Date`, `JournalEntryLine`,
`ReferenceType`, `TxnTaxDetail`, `ModificationMetaData`; `json.Number` is a
string.  The slices of the full-drain accessor hold `StoredJournalEntry`. -/
structure JournalEntry (D Ln Ref Tax M : Type) where
  SyncToken : Option String
  Domain : String
  TxnDate : D
  Sparse : Bool
  Line : List Ln
  CurrencyRef : Option Ref
  Adjustment : Bool
  Id : Option String
  TxnTaxDetail : Option Tax
  MetaData : Option M
  GlobalTaxCalculation : Option String
  DocNumber : Option String
  PrivateNote : Option String
  ExchangeRate : String
deriving DecidableEq

/-- The methods `c.get(params, path, &resp, nil)` and
`c.post(params, path, payload, &resp, nil)` for one record type `P`: each
gives the next transport state and either an error or the record member of the
freshly declared response struct. -/
structure RecordClient (σ Prm E P : Type) where
  get : σ → Prm → String → σ × Except E P
  post : σ → Prm → String → P → σ × Except E P

/-- One issued record call. -/
inductive RecordCall (P : Type) where
  | get (path : String)
  | post (path : String) (payload : P)
deriving DecidableEq

/-- An error value returned by a record operation: one made by `errors.New`,
or the error of a transport call passed on. -/
inductive OpError (E : Type) where
  | errorsNew (text : String)
  | call (err : E)
deriving DecidableEq

/-- A run of a record operation: the returned pair (`Except.ok` is
`return &record, nil`, `Except.error` is `return nil, err`), the caller's
record as the call leaves it (it is passed by pointer), the calls issued in
order and the final transport state. -/
structure OpRun (σ E P : Type) where
  result : Except (OpError E) P
  record : P
  calls : List (RecordCall P)
  state : σ

/-- `CreatePaymentMethod` of `payment_method.go`. -/
def CreatePaymentMethod {σ Prm E M : Type} (c : RecordClient σ Prm E (PaymentMethod M))
    (params : Prm) (paymentMethod : PaymentMethod M) (s : σ) : OpRun σ E (PaymentMethod M) :=
  match c.post s params "paymentmethod" paymentMethod with
  | (s1, .error err) =>
    { result := .error (.call err), record := paymentMethod,
      calls := [.post "paymentmethod" paymentMethod], state := s1 }
  | (s1, .ok created) =>
    { result := .ok created, record := paymentMethod,
      calls := [.post "paymentmethod" paymentMethod], state := s1 }

/-- `FindPaymentMethodById` of `payment_method.go`. -/
def FindPaymentMethodById {σ Prm E M : Type} (c : RecordClient σ Prm E (PaymentMethod M))
    (params : Prm) (id : String) (s : σ) : σ × Except E (PaymentMethod M) :=
  c.get s params ("paymentmethod/" ++ id)

/-- `UpdatePaymentMethod` of `payment_method.go`. -/
def UpdatePaymentMethod {σ Prm E M : Type} (c : RecordClient σ Prm E (PaymentMethod M))
    (params : Prm) (paymentMethod : PaymentMethod M) (s : σ) : OpRun σ E (PaymentMethod M) :=
  if paymentMethod.Id = "" then
    { result := .error (.errorsNew "missing estimate id"), record := paymentMethod,
      calls := [], state := s }
  else
    match FindPaymentMethodById c params paymentMethod.Id s with
    | (s1, .error err) =>
      { result := .error (.call err), record := paymentMethod,
        calls := [.get ("paymentmethod/" ++ paymentMethod.Id)], state := s1 }
    | (s1, .ok existingPaymentMethod) =>
      let payload := { paymentMethod with SyncToken := existingPaymentMethod.SyncToken }
      match c.post s1 params "estimate" payload with
      | (s2, .error err) =>
        { result := .error (.call err), record := payload,
          calls := [.get ("paymentmethod/" ++ paymentMethod.Id), .post "estimate" payload],
          state := s2 }
      | (s2, .ok updated) =>
        { result := .ok updated, record := payload,
          calls := [.get ("paymentmethod/" ++ paymentMethod.Id), .post "estimate" payload],
          state := s2 }

/-- `CreateJournalEntry` of `journal.go`. -/
def CreateJournalEntry {σ Prm E D Ln Ref Tax M : Type}
    (c : RecordClient σ Prm E (JournalEntry D Ln Ref Tax M))
    (params : Prm) (entry : JournalEntry D Ln Ref Tax M) (s : σ) :
    OpRun σ E (JournalEntry D Ln Ref Tax M) :=
  match c.post s params "journalentry" entry with
  | (s1, .error err) =>
    { result := .error (.call err), record := entry,
      calls := [.post "journalentry" entry], state := s1 }
  | (s1, .ok created) =>
    { result := .ok created, record := entry,
      calls := [.post "journalentry" entry], state := s1 }

/-- `FindJournalEntryById` of `journal.go`. -/
def FindJournalEntryById {σ Prm E D Ln Ref Tax M : Type}
    (c : RecordClient σ Prm E (JournalEntry D Ln Ref Tax M))
    (params : Prm) (id : String) (s : σ) : σ × Except E (JournalEntry D Ln Ref Tax M) :=
  c.get s params ("journalentry/" ++ id)

/-- `UpdateJournalEntry` of `journal.go`. -/
def UpdateJournalEntry {σ Prm E D Ln Ref Tax M : Type}
    (c : RecordClient σ Prm E (JournalEntry D Ln Ref Tax M))
    (params : Prm) (entry : JournalEntry D Ln Ref Tax M) (s : σ) :
    OpRun σ E (JournalEntry D Ln Ref Tax M) :=
  match entry.Id with
  | none =>
    { result := .error (.errorsNew "missing entry id"), record := entry, calls := [], state := s }
  | some id =>
    match FindJournalEntryById c params id s with
    | (s1, .error err) =>
      { result := .error (.call err), record := entry,
        calls := [.get ("journalentry/" ++ id)], state := s1 }
    | (s1, .ok existingEntry) =>
      let payload := { entry with SyncToken := existingEntry.SyncToken }
      match c.post s1 params "journalentry" payload with
      | (s2, .error err) =>
        { result := .error (.call err), record := payload,
          calls := [.get ("journalentry/" ++ id), .post "journalentry" payload], state := s2 }
      | (s2, .ok updated) =>
        { result := .ok updated, record := payload,
          calls := [.get ("journalentry/" ++ id), .post "journalentry" payload], state := s2 }

/-- A record client that writes down every call it receives, in order, next
to the state of the client it wraps. -/
def recordingClient {σ Prm E P : Type} (c : RecordClient σ Prm E P) :
    RecordClient (σ × List (RecordCall P)) Prm E P where
  get := fun st prm path =>
    (((c.get st.1 prm path).1, st.2 ++ [.get path]), (c.get st.1 prm path).2)
  post := fun st prm path payload =>
    (((c.post st.1 prm path payload).1, st.2 ++ [.post path payload]),
      (c.post st.1 prm path payload).2)

/-- The error of a transport call as a record operation passes it on. -/
def passOn {E P : Type} : Except E P → Except (OpError E) P
  | .ok p => .ok p
  | .error err => .error (.call err)

/-- A record backend that stores one record: `get` returns it whatever the
path, `post` stores the payload and returns it. -/
def storeClient {P : Type} : RecordClient P Unit String P where
  get := fun stored _ _ => (stored, .ok stored)
  post := fun _ _ _ payload => (payload, .ok payload)

/-- A payment method with the given identifier, name and version token. -/
def samplePaymentMethod (id name token : String) : PaymentMethod Unit :=
  { MetaData := (), Id := id, Name := name, SyncToken := token, «Type» := "", Active := true,
    Domain := "", Status := "" }

/-- A journal entry with the given identifier and version token. -/
def sampleJournalEntry (id token : Option String) : JournalEntry Unit Unit Unit Unit Unit :=
  { SyncToken := token, Domain := "QBO", TxnDate := (), Sparse := false, Line := [],
    CurrencyRef := none, Adjustment := false, Id := id, TxnTaxDetail := none, MetaData := none,
    GlobalTaxCalculation := none, DocNumber := none, PrivateNote := none, ExchangeRate := "" }

/-! ## Records as the slices hold them -/

/-- A memory address. -/
abbrev Addr := Nat

/-- The memory behind the `*string` pointers of the records: cell `a` holds
the string at address `a`. -/
abbrev Heap := List String

/-- The string a `*string` field points to in memory `h`; `none` for the nil
pointer. -/
def readString (h : Heap) (p : Option Addr) : Option String :=
  p.bind fun a => h[a]?

/-- A slice header: the address of the backing array (`none` for the nil
slice) and the length. -/
structure SliceHeader where
  array : Option Addr
  len : Nat
deriving DecidableEq

/-- `JournalEntry` of `journal.go` as a slice element holds it: a pointer
field is the address of its pointee (`none` is nil) and `Line` is a slice
header, so copying the struct copies addresses, not pointees.  `Heap` holds
the pointees of the pointers to strings (`SyncToken`, `Id`, `DocNumber`,
`PrivateNote`, and `GlobalTaxCalculation`, whose pointee is of a string
type); the other addresses point to memory outside it.  `D` stands for
`Date`; `json.Number` is a string. -/
structure StoredJournalEntry (D : Type) where
  SyncToken : Option Addr
  Domain : String
  TxnDate : D
  Sparse : Bool
  Line : SliceHeader
  CurrencyRef : Option Addr
  Adjustment : Bool
  Id : Option Addr
  TxnTaxDetail : Option Addr
  MetaData : Option Addr
  GlobalTaxCalculation : Option Addr
  DocNumber : Option Addr
  PrivateNote : Option Addr
  ExchangeRate : String
deriving DecidableEq

/-- What a JSON object carries for one field: no member, the member `null`, or
a member with a value. -/
inductive Member (α : Type) where
  | absent
  | null
  | value (a : α)
deriving DecidableEq

/-- Decoding a member into a field of a string or boolean type, as
`encoding/json` does: a value overwrites the field, `null` and an absent
member leave it. -/
def decodeValue {α : Type} (cur : α) : Member α → α
  | .value a => a
  | _ => cur

/-- Decoding a member into a `*string` field, as `encoding/json` does: an
absent member leaves the pointer, `null` sets it to nil, a string is written
to a new cell when the pointer is nil and into the cell the pointer already
points to otherwise. -/
def decodePointer (h : Heap) (cur : Option Addr) : Member String → Heap × Option Addr
  | .absent => (h, cur)
  | .null => (h, none)
  | .value s =>
    match cur with
    | none => (h ++ [s], some h.length)
    | some a => (h.set a s, some a)

/-- What a JSON object of the `JournalEntry` array carries for the fields of
string and boolean type and for the pointers to strings.  (The remaining
members, `TxnDate`, `Line`, `CurrencyRef`, `TxnTaxDetail`, `MetaData` and
`ExchangeRate`, are absent from these bodies.) -/
structure JournalEntryBody where
  SyncToken : Member String
  Domain : Member String
  Sparse : Member Bool
  Adjustment : Member Bool
  Id : Member String
  GlobalTaxCalculation : Member String
  DocNumber : Member String
  PrivateNote : Member String
deriving DecidableEq

/-- The zero value of `JournalEntry`. -/
def StoredJournalEntry.zero {D : Type} (zeroDate : D) : StoredJournalEntry D :=
  { SyncToken := none, Domain := "", TxnDate := zeroDate, Sparse := false,
    Line := { array := none, len := 0 }, CurrencyRef := none, Adjustment := false, Id := none,
    TxnTaxDetail := none, MetaData := none, GlobalTaxCalculation := none, DocNumber := none,
    PrivateNote := none, ExchangeRate := "" }

/-- Decoding a JSON object of the `JournalEntry` array into an element, member
by member.  The members are taken in the order of the fields of the struct;
the order only decides which address a new cell gets. -/
def journalEntryDecoder {D : Type} (zeroDate : D) :
    ElementDecoder Heap (StoredJournalEntry D) JournalEntryBody where
  zero := StoredJournalEntry.zero zeroDate
  into := fun h cur b =>
    let p1 := decodePointer h cur.SyncToken b.SyncToken
    let p2 := decodePointer p1.1 cur.Id b.Id
    let p3 := decodePointer p2.1 cur.GlobalTaxCalculation b.GlobalTaxCalculation
    let p4 := decodePointer p3.1 cur.DocNumber b.DocNumber
    let p5 := decodePointer p4.1 cur.PrivateNote b.PrivateNote
    (p5.1,
      { cur with
        SyncToken := p1.2
        Domain := decodeValue cur.Domain b.Domain
        Sparse := decodeValue cur.Sparse b.Sparse
        Adjustment := decodeValue cur.Adjustment b.Adjustment
        Id := p2.2
        GlobalTaxCalculation := p3.2
        DocNumber := p4.2
        PrivateNote := p5.2 })

/-- The JSON object of a journal entry that carries an `Id`, a `SyncToken` and
the `domain`. -/
def journalEntryBody (id token : String) : JournalEntryBody :=
  { SyncToken := .value token, Domain := .value "QBO", Sparse := .absent, Adjustment := .absent,
    Id := .value id, GlobalTaxCalculation := .absent, DocNumber := .absent,
    PrivateNote := .absent }

/-- What a JSON object of the `PaymentMethod` array carries for the fields of
string and boolean type (`MetaData` is absent from these bodies). -/
structure PaymentMethodBody where
  Id : Member String
  Name : Member String
  SyncToken : Member String
  «Type» : Member String
  Active : Member Bool
  Domain : Member String
  Status : Member String
deriving DecidableEq

/-- Decoding a JSON object of the `PaymentMethod` array into an element,
member by member; `PaymentMethod` holds no pointer. -/
def paymentMethodDecoder {M : Type} (zeroMeta : M) :
    ElementDecoder Unit (PaymentMethod M) PaymentMethodBody where
  zero := { MetaData := zeroMeta, Id := "", Name := "", SyncToken := "", «Type» := "",
            Active := false, Domain := "", Status := "" }
  into := fun h cur b =>
    (h,
      { cur with
        Id := decodeValue cur.Id b.Id
        Name := decodeValue cur.Name b.Name
        SyncToken := decodeValue cur.SyncToken b.SyncToken
        «Type» := decodeValue cur.«Type» b.«Type»
        Active := decodeValue cur.Active b.Active
        Domain := decodeValue cur.Domain b.Domain
        Status := decodeValue cur.Status b.Status })

/-- The JSON object of a payment method that carries an `Id`, a `Name`, a
`SyncToken`, `Active` and, when `kind` is given, a `Type`. -/
def paymentMethodBody (id name token : String) (kind : Member String) : PaymentMethodBody :=
  { Id := .value id, Name := .value name, SyncToken := .value token, «Type» := kind,
    Active := .value true, Domain := .absent, Status := .absent }

/-! ## Entities, sample bodies and sample backends -/

deriving instance DecidableEq for Except

/-- The three entities that have a full-drain accessor. -/
inductive Entity where
  | PaymentMethod
  | JournalEntry
  | ExchangeRate
deriving DecidableEq

/-- The entity name as it appears in the query text. -/
def Entity.name : Entity → String
  | .PaymentMethod => "PaymentMethod"
  | .JournalEntry => "JournalEntry"
  | .ExchangeRate => "ExchangeRate"

/-- The count query of an entity. -/
def Entity.countQuery (e : Entity) : String :=
  "SELECT COUNT(*) FROM " ++ e.name

/-- The text before the start position in the page query of an entity. -/
def Entity.pagePrefix (e : Entity) : String :=
  "SELECT * FROM " ++ e.name ++ " ORDERBY Id STARTPOSITION "

/-- The page query of an entity for a 1-based start position and a page size. -/
def Entity.pageText (e : Entity) (start size : Int) : String :=
  "SELECT * FROM " ++ e.name ++ " ORDERBY Id STARTPOSITION " ++ Itoa start
    ++ " MAXRESULTS " ++ Itoa size

/-- The full-drain accessor of an entity. -/
def Entity.findAll {σ Prm E R : Type} (e : Entity) (QueryPageSize capLimit : Int)
    (c : QueryClient σ Prm E R) (params : Prm) (budget : Nat) (s : σ) : Run σ E R :=
  match e with
  | .PaymentMethod => FindPaymentMethods QueryPageSize capLimit c params budget s
  | .JournalEntry => FindJournalEntries QueryPageSize capLimit c params budget s
  | .ExchangeRate => FindExchangeRates QueryPageSize capLimit c params budget s

/-- A backend that answers the count query with `TotalCount = 1` and every
other query with a `TotalCount` one above the value the caller's struct
holds, carrying no records. -/
def growingClient (countQuery : String) : QueryClient Unit Unit String String where
  query := fun _ _ q resp =>
    if q = countQuery then
      ((), .ok (decodeInto (wholeDecoder "") () resp
        { Records := none, MaxResults := none, StartPosition := none,
          TotalCount := some 1 }).2)
    else
      ((), .ok (decodeInto (wholeDecoder "") () resp
        { Records := none, MaxResults := none, StartPosition := none,
          TotalCount := some (resp.TotalCount + 1) }).2)

/-- The records the bodies of a script carry, concatenated in order; a body
without a record array carries none. -/
def carried {E B : Type} : List (Except E (PageBody B)) → List B
  | [] => []
  | .ok body :: rest => body.Records.getD [] ++ carried rest
  | .error _ :: rest => carried rest

/-- A body that carries only a `TotalCount`. -/
def countBody {B : Type} (n : Int) : PageBody B :=
  { Records := none, MaxResults := none, StartPosition := none, TotalCount := some n }

/-- A body that carries only a record array. -/
def recordsBody {B : Type} (rs : List B) : PageBody B :=
  { Records := some rs, MaxResults := none, StartPosition := none, TotalCount := none }

/-- A body whose `QueryResponse` object is empty. -/
def emptyBody {B : Type} : PageBody B :=
  { Records := none, MaxResults := none, StartPosition := none, TotalCount := none }

/-- Value of a list of decimal digit characters, most significant first. -/
def digitsValue (acc : Nat) (ds : List Char) : Nat :=
  ds.foldl (fun a ch => 10 * a + (ch.toNat - 48)) acc

/-- Number of pages of size `P` needed for `N` records: `ceil(N / P)`. -/
def pageCount (N P : Nat) : Nat := (N + P - 1) / P



/-- The capacity limit of the sample runs: a run time that allocates slices of
up to a million records. -/
def sampleCapLimit : Int := 1000000

/-- What the caller reads through a pointer field of the journal entries an
accessor returned: the pointees in the memory as the run left it. -/
def Run.readField {E D : Type} (run : Run Heap E (StoredJournalEntry D))
    (field : StoredJournalEntry D → Option Addr) : List (Option String) :=
  match run.outcome with
  | .returned rs => rs.map fun entry => readString run.state (field entry)
  | _ => []

/-! ## JSON text, as `encoding/json` reads and writes it

The body of a response is a `String`; `json.Unmarshal` is the parser
`parseJSON` followed by the decoding of the parsed value into the `Failure`
struct, `json.Marshal` is `marshalFailure`.  `Date` is declared outside these
files: its JSON decoding and its JSON text are parameters (`DateCodec`). -/

/-- A parsed JSON value; a number keeps its text. -/
inductive JSON where
  | null
  | bool (b : Bool)
  | num (text : List Char)
  | str (s : String)
  | arr (items : List JSON)
  | obj (members : List (String × JSON))

/-- The double quote character. -/
def quote : Char := Char.ofNat 34

/-- The backslash character. -/
def backslash : Char := Char.ofNat 92

/-- The opening brace character. -/
def openBrace : Char := Char.ofNat 123

/-- The closing brace character. -/
def closeBrace : Char := Char.ofNat 125

/-- The replacement character U+FFFD. -/
def replacementChar : Char := Char.ofNat 65533

/-- The nesting depth beyond which the scanner of `encoding/json` gives up. -/
def maxNestingDepth : Nat := 10000

/-- JSON white space: space, tab, carriage return, line feed. -/
def isSpace (c : Char) : Bool :=
  c = ' ' || c = '\t' || c = '\r' || c = '\n'

/-- Drop leading white space. -/
def skipSpace : List Char → List Char
  | [] => []
  | c :: cs => if isSpace c then skipSpace cs else c :: cs

/-- Value of a hexadecimal digit. -/
def hexValue (c : Char) : Option Nat :=
  if '0' ≤ c ∧ c ≤ '9' then some (c.toNat - 48)
  else if 'a' ≤ c ∧ c ≤ 'f' then some (c.toNat - 87)
  else if 'A' ≤ c ∧ c ≤ 'F' then some (c.toNat - 55)
  else none

/-- Value of four hexadecimal digits. -/
def hex4 (a b c d : Char) : Option Nat :=
  match hexValue a, hexValue b, hexValue c, hexValue d with
  | some x, some y, some z, some w => some (((x * 16 + y) * 16 + z) * 16 + w)
  | _, _, _, _ => none

/-- The character of a `\uXXXX` escape with code unit `u`, and the text left
after it.  A high surrogate followed by the escape of a low surrogate gives
the combined character and consumes both; any other surrogate gives U+FFFD. -/
def unescapeU (u : Nat) (rest : List Char) : Char × List Char :=
  if 55296 ≤ u ∧ u < 57344 then
    match rest with
    | b :: x :: h1 :: h2 :: h3 :: h4 :: rest1 =>
      if b = backslash ∧ x = 'u' then
        match hex4 h1 h2 h3 h4 with
        | some v =>
          if u < 56320 ∧ 56320 ≤ v ∧ v < 57344 then
            (Char.ofNat (65536 + (u - 55296) * 1024 + (v - 56320)), rest1)
          else (replacementChar, rest)
        | none => (replacementChar, rest)
      else (replacementChar, rest)
    | _ => (replacementChar, rest)
  else (Char.ofNat u, rest)

/-- The character of a one-letter escape. -/
def simpleEscape (e : Char) : Option Char :=
  if e = quote then some quote
  else if e = backslash then some backslash
  else if e = '/' then some '/'
  else if e = 'b' then some (Char.ofNat 8)
  else if e = 'f' then some (Char.ofNat 12)
  else if e = 'n' then some '\n'
  else if e = 'r' then some '\r'
  else if e = 't' then some '\t'
  else none

/-- The content of a string literal, read after its opening quote, and the
text after its closing quote.  Control characters are not allowed unescaped. -/
def parseStr : Nat → List Char → Option (List Char × List Char)
  | 0, _ => none
  | _ + 1, [] => none
  | budget + 1, c :: rest =>
    if c = quote then some ([], rest)
    else if c = backslash then
      match rest with
      | [] => none
      | e :: rest1 =>
        if e = 'u' then
          match rest1 with
          | h1 :: h2 :: h3 :: h4 :: rest2 =>
            match hex4 h1 h2 h3 h4 with
            | none => none
            | some u =>
              match parseStr budget (unescapeU u rest2).2 with
              | none => none
              | some (s, r) => some ((unescapeU u rest2).1 :: s, r)
          | _ => none
        else
          match simpleEscape e with
          | none => none
          | some ch =>
            match parseStr budget rest1 with
            | none => none
            | some (s, r) => some (ch :: s, r)
    else if c.toNat < 32 then none
    else
      match parseStr budget rest with
      | none => none
      | some (s, r) => some (c :: s, r)

/-- The leading decimal digits of a text and what follows them. -/
def takeDigits : List Char → List Char × List Char
  | [] => ([], [])
  | c :: cs =>
    if c.isDigit then (c :: (takeDigits cs).1, (takeDigits cs).2) else ([], c :: cs)

/-- The optional fraction of a number: a dot and at least one digit. -/
def parseFraction (cs : List Char) : Option (List Char × List Char) :=
  match cs with
  | [] => some ([], [])
  | c :: rest =>
    if c = '.' then
      match takeDigits rest with
      | ([], _) => none
      | (d :: ds, r) => some (c :: d :: ds, r)
    else some ([], c :: rest)

/-- The optional exponent of a number: `e` or `E`, an optional sign and at
least one digit. -/
def parseExponent (cs : List Char) : Option (List Char × List Char) :=
  match cs with
  | [] => some ([], [])
  | c :: rest =>
    if c = 'e' ∨ c = 'E' then
      match rest with
      | [] => none
      | s :: rest1 =>
        if s = '+' ∨ s = '-' then
          match takeDigits rest1 with
          | ([], _) => none
          | (d :: ds, r) => some (c :: s :: d :: ds, r)
        else
          match takeDigits (s :: rest1) with
          | ([], _) => none
          | (d :: ds, r) => some (c :: d :: ds, r)
    else some ([], c :: rest)

/-- The digits of a number after its optional sign: integer part (a lone `0`,
or a non-zero digit and more digits), fraction, exponent. -/
def parseUnsigned (cs : List Char) : Option (List Char × List Char) :=
  match cs with
  | [] => none
  | d :: rest =>
    if d = '0' then
      match parseFraction rest with
      | none => none
      | some (fr, r1) =>
        match parseExponent r1 with
        | none => none
        | some (ex, r2) => some (d :: (fr ++ ex), r2)
    else if '1' ≤ d ∧ d ≤ '9' then
      match parseFraction (takeDigits rest).2 with
      | none => none
      | some (fr, r1) =>
        match parseExponent r1 with
        | none => none
        | some (ex, r2) => some (d :: ((takeDigits rest).1 ++ fr ++ ex), r2)
    else none

/-- A number literal and the text after it. -/
def parseNumber (cs : List Char) : Option (List Char × List Char) :=
  match cs with
  | [] => none
  | c :: rest =>
    if c = '-' then
      match parseUnsigned rest with
      | none => none
      | some (ds, r) => some (c :: ds, r)
    else parseUnsigned (c :: rest)

mutual

/-- One JSON value at nesting depth `depth`, and the text after it. -/
def parseValue : Nat → Nat → List Char → Option (JSON × List Char)
  | 0, _, _ => none
  | budget + 1, depth, input =>
    match skipSpace input with
    | [] => none
    | c :: rest =>
      if c = quote then
        match parseStr budget rest with
        | none => none
        | some (s, r) => some (.str (String.mk s), r)
      else if c = '[' then
        if maxNestingDepth ≤ depth then none
        else
          match skipSpace rest with
          | [] => none
          | c1 :: rest1 =>
            if c1 = ']' then some (.arr [], rest1)
            else
              match parseValue budget (depth + 1) (c1 :: rest1) with
              | none => none
              | some (v, r1) =>
                match parseElements budget (depth + 1) r1 with
                | none => none
                | some (vs, r2) => some (.arr (v :: vs), r2)
      else if c = openBrace then
        if maxNestingDepth ≤ depth then none
        else
          match skipSpace rest with
          | [] => none
          | c1 :: rest1 =>
            if c1 = closeBrace then some (.obj [], rest1)
            else if c1 = quote then
              match parseStr budget rest1 with
              | none => none
              | some (k, r1) =>
                match skipSpace r1 with
                | [] => none
                | c2 :: r2 =>
                  if c2 = ':' then
                    match parseValue budget (depth + 1) r2 with
                    | none => none
                    | some (v, r3) =>
                      match parseMembers budget (depth + 1) r3 with
                      | none => none
                      | some (ms, r4) => some (.obj ((String.mk k, v) :: ms), r4)
                  else none
            else none
      else if c = 'n' then
        match rest with
        | c1 :: c2 :: c3 :: r => if c1 = 'u' ∧ c2 = 'l' ∧ c3 = 'l' then some (.null, r) else none
        | _ => none
      else if c = 't' then
        match rest with
        | c1 :: c2 :: c3 :: r =>
          if c1 = 'r' ∧ c2 = 'u' ∧ c3 = 'e' then some (.bool true, r) else none
        | _ => none
      else if c = 'f' then
        match rest with
        | c1 :: c2 :: c3 :: c4 :: r =>
          if c1 = 'a' ∧ c2 = 'l' ∧ c3 = 's' ∧ c4 = 'e' then some (.bool false, r) else none
        | _ => none
      else if c = '-' ∨ c.isDigit then
        match parseNumber (c :: rest) with
        | none => none
        | some (ds, r) => some (.num ds, r)
      else none

/-- The elements of an array after its first one, up to the closing bracket. -/
def parseElements : Nat → Nat → List Char → Option (List JSON × List Char)
  | 0, _, _ => none
  | budget + 1, depth, input =>
    match skipSpace input with
    | [] => none
    | c :: rest =>
      if c = ']' then some ([], rest)
      else if c = ',' then
        match parseValue budget depth rest with
        | none => none
        | some (v, r1) =>
          match parseElements budget depth r1 with
          | none => none
          | some (vs, r2) => some (v :: vs, r2)
      else none

/-- The members of an object after its first one, up to the closing brace. -/
def parseMembers : Nat → Nat → List Char → Option (List (String × JSON) × List Char)
  | 0, _, _ => none
  | budget + 1, depth, input =>
    match skipSpace input with
    | [] => none
    | c :: rest =>
      if c = closeBrace then some ([], rest)
      else if c = ',' then
        match skipSpace rest with
        | [] => none
        | c1 :: rest1 =>
          if c1 = quote then
            match parseStr budget rest1 with
            | none => none
            | some (k, r1) =>
              match skipSpace r1 with
              | [] => none
              | c2 :: r2 =>
                if c2 = ':' then
                  match parseValue budget depth r2 with
                  | none => none
                  | some (v, r3) =>
                    match parseMembers budget depth r3 with
                    | none => none
                    | some (ms, r4) => some ((String.mk k, v) :: ms, r4)
                else none
          else none
      else none

end

/-- The value of a JSON text: one value, white space allowed around it and
nothing else; `none` is a syntax error.  Every step of the parser that spends
budget consumes a character, so the length of the text is budget enough
(`parseJSON_budget`). -/
def parseJSON (text : String) : Option JSON :=
  match parseValue (text.data.length + 1) 0 text.data with
  | none => none
  | some (v, rest) =>
    match skipSpace rest with
    | [] => some v
    | _ :: _ => none


/-! ## The `Failure` struct and its JSON coding -/

/-- One element of `Failure.Fault.Error`. -/
structure FaultError where
  Message : String
  Detail : String
  Code : String
  Element : String
deriving DecidableEq

/-- The struct `Failure.Fault`.  `Error` is a slice: `none` is the nil slice,
`some []` the empty slice. -/
structure Fault where
  Error : Option (List FaultError)
  «Type» : String
deriving DecidableEq

/-- `Failure` of `errors.go`; `Date` is the type of its `Time` field. -/
structure Failure (Date : Type) where
  Fault : Fault
  Time : Date
deriving DecidableEq

/-- Modelled from the spec: the JSON behaviour of `Date`, the type of
`Failure.Time`, which is declared outside these files.  On the wire `time` is
a JSON string, so `format` gives the content of the JSON string a date is
written as (or the text of the error `json.Marshal` reports); `decode` is the
decoding of a JSON value into a date that holds `cur`, `none` when it reports
an error; `zero` is the zero value. -/
structure DateCodec (Date : Type) where
  zero : Date
  decode : Date → JSON → Option Date
  format : Date → Except String String

/-- Modelled from the spec: a `Date` that keeps the text of the JSON string
(`"time": string`) it was read from. -/
def textDate : DateCodec String where
  zero := ""
  decode := fun cur j =>
    match j with
    | .str s => some s
    | .null => some cur
    | _ => none
  format := fun d => .ok d

/-- The zero value of the element struct. -/
def FaultError.zero : FaultError :=
  { Message := "", Detail := "", Code := "", Element := "" }

/-- The `Error` slice while it is decoded into: its elements and the
elements its backing array holds beyond its length. -/
structure ErrorSlice where
  items : Option (List FaultError)
  spare : List FaultError

/-- The `Fault` struct while it is decoded into. -/
structure FaultState where
  Error : ErrorSlice
  «Type» : String

/-- The `Failure` struct while it is decoded into. -/
structure FailureState (Date : Type) where
  Fault : FaultState
  Time : Date

/-- The zero value `var errStruct Failure`. -/
def FailureState.zero {Date : Type} (D : DateCodec Date) : FailureState Date :=
  { Fault := { Error := { items := none, spare := [] }, «Type» := "" }, Time := D.zero }

/-- The `Failure` value a decoding state stands for. -/
def FailureState.value {Date : Type} (st : FailureState Date) : Failure Date :=
  { Fault := { Error := st.Fault.Error.items, «Type» := st.Fault.«Type» }, Time := st.Time }

/-- The zero value of `Failure`. -/
def Failure.zero {Date : Type} (D : DateCodec Date) : Failure Date :=
  (FailureState.zero D).value

/-- Case folding of one character of an object key, for matching it against a
field name made of ASCII letters: lower case to upper case, the long s to
`S`, the Kelvin sign to `K`. -/
def foldChar (c : Char) : Char :=
  if 'a' ≤ c ∧ c ≤ 'z' then Char.ofNat (c.toNat - 32)
  else if c = Char.ofNat 383 then 'S'
  else if c = Char.ofNat 8490 then 'K'
  else c

/-- Whether an object key names the field with JSON name `name`: equal up to
case folding. -/
def keyMatches (key name : String) : Bool :=
  key.data.map foldChar == name.data.map foldChar

/-- Decoding a JSON value into a `string` field that holds `cur`: a string
sets it, `null` leaves it, anything else is a type error. -/
def decodeString (cur : String) : JSON → Option String
  | .str s => some s
  | .null => some cur
  | _ => none

/-- Decoding the members of an object one after the other into a struct;
`step` decodes one member into the struct. -/
def decodeMembers {α : Type} (step : α → String → JSON → Option α) :
    α → List (String × JSON) → Option α
  | cur, [] => some cur
  | cur, (k, v) :: rest =>
    match step cur k v with
    | none => none
    | some next => decodeMembers step next rest

/-- One member of an element object, decoded into the element struct; a key
that names no field is skipped. -/
def decodeFaultErrorMember (cur : FaultError) (key : String) (v : JSON) : Option FaultError :=
  if keyMatches key "Message" then
    (decodeString cur.Message v).map fun s => { cur with Message := s }
  else if keyMatches key "Detail" then
    (decodeString cur.Detail v).map fun s => { cur with Detail := s }
  else if keyMatches key "code" then
    (decodeString cur.Code v).map fun s => { cur with Code := s }
  else if keyMatches key "element" then
    (decodeString cur.Element v).map fun s => { cur with Element := s }
  else some cur

/-- Decoding a JSON value into an element struct that holds `cur`. -/
def decodeFaultError (cur : FaultError) : JSON → Option FaultError
  | .obj members => decodeMembers decodeFaultErrorMember cur members
  | .null => some cur
  | _ => none

/-- Decoding the elements of a JSON array into a backing array: the i-th
element is decoded into the i-th element of the backing array, or into a zero
element beyond its end. -/
def decodeErrorArray : List FaultError → List JSON → Option (List FaultError)
  | _, [] => some []
  | backing, j :: js =>
    match decodeFaultError (backing.headD FaultError.zero) j with
    | none => none
    | some x =>
      match decodeErrorArray backing.tail js with
      | none => none
      | some xs => some (x :: xs)

/-- Decoding a JSON value into the `Error` slice: `null` sets it to nil, an
empty array to a fresh empty slice, an array decodes element by element into
the backing array and sets the length. -/
def decodeErrorSlice (cur : ErrorSlice) : JSON → Option ErrorSlice
  | .null => some { items := none, spare := [] }
  | .arr [] => some { items := some [], spare := [] }
  | .arr (j :: js) =>
    match decodeErrorArray (cur.items.getD [] ++ cur.spare) (j :: js) with
    | none => none
    | some xs =>
      some { items := some xs, spare := (cur.items.getD [] ++ cur.spare).drop xs.length }
  | _ => none

/-- One member of the `Fault` object, decoded into the `Fault` struct. -/
def decodeFaultMember (cur : FaultState) (key : String) (v : JSON) : Option FaultState :=
  if keyMatches key "Error" then
    (decodeErrorSlice cur.Error v).map fun e => { cur with Error := e }
  else if keyMatches key "type" then
    (decodeString cur.«Type» v).map fun s => { cur with «Type» := s }
  else some cur

/-- Decoding a JSON value into the `Fault` struct. -/
def decodeFault (cur : FaultState) : JSON → Option FaultState
  | .obj members => decodeMembers decodeFaultMember cur members
  | .null => some cur
  | _ => none

/-- One member of the top-level object, decoded into the `Failure` struct. -/
def decodeFailureMember {Date : Type} (D : DateCodec Date) (cur : FailureState Date)
    (key : String) (v : JSON) : Option (FailureState Date) :=
  if keyMatches key "Fault" then
    (decodeFault cur.Fault v).map fun f => { cur with Fault := f }
  else if keyMatches key "time" then
    (D.decode cur.Time v).map fun t => { cur with Time := t }
  else some cur

/-- Decoding a JSON value into the `Failure` struct. -/
def decodeFailure {Date : Type} (D : DateCodec Date) (cur : FailureState Date) :
    JSON → Option (FailureState Date)
  | .obj members => decodeMembers (decodeFailureMember D) cur members
  | .null => some cur
  | _ => none

/-- `json.Unmarshal(msg, &errStruct)` for a zero `errStruct`: the decoded
`Failure`, or `none` when `Unmarshal` returns an error. -/
def unmarshalFailure {Date : Type} (D : DateCodec Date) (msg : String) : Option (Failure Date) :=
  match parseJSON msg with
  | none => none
  | some j =>
    match decodeFailure D (FailureState.zero D) j with
    | none => none
    | some st => some st.value

/-- A hexadecimal digit, lower case. -/
def hexDigit (n : Nat) : Char :=
  if n < 10 then Char.ofNat (48 + n) else Char.ofNat (87 + n)

/-- One character of a string as `json.Marshal` writes it: the quote and the
backslash behind a backslash; backspace, form feed, line feed, carriage return
and tab as their one-letter escapes; the other control characters and `<`,
`>`, `&` as a `u` escape with four hexadecimal digits; U+2028 and U+2029 as
`u` escapes; anything else as it is.  (Go releases before 1.22 write backspace
and form feed as `u` escapes; `parseStr` reads both forms to the same
character.) -/
def escapeChar (c : Char) : List Char :=
  if c = quote ∨ c = backslash then [backslash, c]
  else if c = Char.ofNat 8 then [backslash, 'b']
  else if c = Char.ofNat 12 then [backslash, 'f']
  else if c = '\n' then [backslash, 'n']
  else if c = '\r' then [backslash, 'r']
  else if c = '\t' then [backslash, 't']
  else if c.toNat < 32 ∨ c = '<' ∨ c = '>' ∨ c = '&' then
    [backslash, 'u', '0', '0', hexDigit (c.toNat / 16), hexDigit (c.toNat % 16)]
  else if c = Char.ofNat 8232 then [backslash, 'u', '2', '0', '2', '8']
  else if c = Char.ofNat 8233 then [backslash, 'u', '2', '0', '2', '9']
  else [c]

/-- The characters of a string, each escaped. -/
def escapeAll : List Char → List Char
  | [] => []
  | c :: cs => escapeChar c ++ escapeAll cs

/-- A string literal. -/
def renderString (s : String) : List Char :=
  quote :: (escapeAll s.data ++ [quote])

/-- A member `"name":` of an object. -/
def renderKey (name : String) : List Char :=
  quote :: (name.data ++ [quote, ':'])

/-- One element of the `Error` array. -/
def renderFaultError (x : FaultError) : List Char :=
  openBrace :: (renderKey "Message" ++ renderString x.Message ++ ',' ::
    (renderKey "Detail" ++ renderString x.Detail ++ ',' ::
    (renderKey "code" ++ renderString x.Code ++ ',' ::
    (renderKey "element" ++ renderString x.Element ++ [closeBrace]))))

/-- The elements of the `Error` array after the first, each behind a comma,
and the closing bracket. -/
def renderMoreErrors : List FaultError → List Char
  | [] => [']']
  | x :: xs => ',' :: (renderFaultError x ++ renderMoreErrors xs)

/-- The `Error` slice: `null` for the nil slice, an array otherwise. -/
def renderErrors : Option (List FaultError) → List Char
  | none => ['n', 'u', 'l', 'l']
  | some [] => ['[', ']']
  | some (x :: xs) => '[' :: (renderFaultError x ++ renderMoreErrors xs)

/-- The text of the `Fault` struct. -/
def renderFault (fault : Fault) : List Char :=
  openBrace :: (renderKey "Error" ++ renderErrors fault.Error ++ ',' ::
    (renderKey "type" ++ renderString fault.«Type» ++ [closeBrace]))

/-- The text of a `Failure` whose date is written as the string `time`. -/
def renderFailure (fault : Fault) (time : String) : List Char :=
  openBrace :: (renderKey "Fault" ++ renderFault fault ++ ',' ::
    (renderKey "time" ++ renderString time ++ [closeBrace]))

/-- `json.Marshal(f)` for a `Failure`: fields in declaration order, no white
space; an error when the date cannot be written. -/
def marshalFailure {Date : Type} (D : DateCodec Date) (f : Failure Date) : Except String String :=
  match D.format f.Time with
  | .error err => .error err
  | .ok time => .ok (String.mk (renderFailure f.Fault time))

/-- `Failure.Error` of `errors.go`. -/
def Failure.Error {Date : Type} (D : DateCodec Date) (f : Failure Date) : String :=
  match marshalFailure D f with
  | .error err => "unexpected error while marshalling error: " ++ err
  | .ok text => text

/-- An `error` value returned by `parseFailure`: a `Failure`, or an error made
from a text by `errors.New` or `fmt.Errorf`. -/
inductive ErrorValue (Date : Type) where
  | failure (f : Failure Date)
  | text (msg : String)
deriving DecidableEq

/-- The `Error()` text of an error value. -/
def ErrorValue.Error {Date : Type} (D : DateCodec Date) : ErrorValue Date → String
  | .failure f => f.Error D
  | .text msg => msg

/-- What `parseFailure` reads of an `http.Response`: the status code, the
`Content-Encoding` header and the body, which is either the text that reading
it to the end delivers or the text of the read error.  (The response comes
from the HTTP client, whose responses always have a body to read.) -/
structure Response where
  StatusCode : Int
  ContentEncoding : String
  Body : Except String String

/-- `compress/gzip` on a body: `gzip.NewReader` fails with an error text, or
gives a reader whose content is the decompressed text or the text of a read
error. -/
abbrev Gunzip := Except String String → Except String (Except String String)

/-- `parseFailure` of `errors.go`. -/
def parseFailure {Date : Type} (D : DateCodec Date) (gunzip : Gunzip) (resp : Response) :
    ErrorValue Date :=
  match (if resp.ContentEncoding = "gzip" then gunzip resp.Body else .ok resp.Body) with
  | .error err => .text ("failed to create gzip reader: " ++ err)
  | .ok reader =>
    match reader with
    | .error err => .text ("When reading response body:" ++ err)
    | .ok msg =>
      match unmarshalFailure D msg with
      | none => .text (Itoa resp.StatusCode ++ " " ++ msg)
      | some errStruct => .failure errStruct

/-- A gzip reader that rejects every body. -/
def noGunzip : Gunzip := fun _ => .error "gzip: invalid header"

/-- A body that is JSON but no fault envelope: the error object of an OAuth
token endpoint. -/
def oauthBody : String :=
  "\x7b\"error\":\"invalid_grant\"\x7d"

/-! ## Fault envelopes, read by member name

What a JSON value says as a fault envelope
`{ "Fault": { "Error": [ {"Message","Detail","code","element"} ], "type" }, "time" }`,
read member by member by name, whatever the order of the members; this is the
reading the decoder of `encoding/json` is compared with. -/

/-- The values of the members of an object whose key names the field with
JSON name `name`, in the order of the text. -/
def membersNamed (name : String) : List (String × JSON) → List JSON
  | [] => []
  | (k, v) :: rest =>
    if keyMatches k name then v :: membersNamed name rest else membersNamed name rest

/-- The text of a string member of an envelope object: the string of the one
member with that name, the empty text when no member has that name; `none`
when several members have that name or the member is not a string. -/
def envelopeText (name : String) (ms : List (String × JSON)) : Option String :=
  match membersNamed name ms with
  | [] => some ""
  | [.str s] => some s
  | _ => none

/-- The sub-error a JSON value stands for: an object with the string members
`Message`, `Detail`, `code` and `element`, each at most once. -/
def envelopeSubError : JSON → Option FaultError
  | .obj ms =>
    match envelopeText "Message" ms, envelopeText "Detail" ms, envelopeText "code" ms,
      envelopeText "element" ms with
    | some m, some d, some c, some e => some { Message := m, Detail := d, Code := c, Element := e }
    | _, _, _, _ => none
  | _ => none

/-- The sub-errors a list of JSON values stands for, in the same order. -/
def envelopeSubErrors : List JSON → Option (List FaultError)
  | [] => some []
  | j :: js =>
    match envelopeSubError j, envelopeSubErrors js with
    | some x, some xs => some (x :: xs)
    | _, _ => none

/-- The fault a JSON value stands for: an object with one `Error` member, an
array of sub-errors, and the string member `type`. -/
def envelopeFault : JSON → Option Fault
  | .obj ms =>
    match membersNamed "Error" ms with
    | [.arr items] =>
      match envelopeSubErrors items, envelopeText "type" ms with
      | some xs, some t => some { Error := some xs, «Type» := t }
      | _, _ => none
    | _ => none
  | _ => none

/-- The fault envelope a JSON value stands for: an object with one `Fault`
member, a fault, and one `time` member, a string; the result is the fault and
the text of the time. -/
def readEnvelope : JSON → Option (Fault × String)
  | .obj ms =>
    match membersNamed "Fault" ms, membersNamed "time" ms with
    | [f], [.str time] => (envelopeFault f).map fun fault => (fault, time)
    | _, _ => none
  | _ => none

/-- Whether a JSON value is an object or `null`, the two kinds of value
`json.Unmarshal` decodes into a struct without a type error. -/
def JSON.isObjectOrNull : JSON → Bool
  | .obj _ => true
  | .null => true
  | _ => false

theorem drainLoop_exit {σ Prm E R : Type} (c : QueryClient σ Prm E R) (params : Prm)
    (pagePrefix : String) (P : Int) (budget : Nat) (i : Int) (resp : QueryResponse R)
    (acc : List R) (s : σ) (h : ¬ i < resp.TotalCount) :
    drainLoop c params pagePrefix P budget i resp acc s
      = { outcome := .returned acc, calls := [], state := s } := by
  unfold drainLoop
  simp [h]

theorem drainLoop_zero {σ Prm E R : Type} (c : QueryClient σ Prm E R) (params : Prm)
    (pagePrefix : String) (P : Int) (i : Int) (resp : QueryResponse R)
    (acc : List R) (s : σ) (h : i < resp.TotalCount) :
    drainLoop c params pagePrefix P 0 i resp acc s
      = { outcome := .pending, calls := [], state := s } := by
  unfold drainLoop
  simp [h]

theorem drainLoop_error {σ Prm E R : Type} (c : QueryClient σ Prm E R) (params : Prm)
    (pagePrefix : String) (P : Int) (budget : Nat) (i : Int) (resp : QueryResponse R)
    (acc : List R) (s s1 : σ) (err : E) (h : i < resp.TotalCount)
    (hq : c.query s params (pageQuery pagePrefix P i) resp = (s1, .error err)) :
    drainLoop c params pagePrefix P (budget + 1) i resp acc s
      = { outcome := .failed err, calls := [(pageQuery pagePrefix P i, .error err)],
          state := s1 } := by
  rw [drainLoop]
  simp [h, hq]

theorem drainLoop_ok {σ Prm E R : Type} (c : QueryClient σ Prm E R) (params : Prm)
    (pagePrefix : String) (P : Int) (budget : Nat) (i : Int) (resp resp1 : QueryResponse R)
    (acc : List R) (s s1 : σ) (h : i < resp.TotalCount)
    (hq : c.query s params (pageQuery pagePrefix P i) resp = (s1, .ok resp1)) :
    drainLoop c params pagePrefix P (budget + 1) i resp acc s
      = { outcome := (drainLoop c params pagePrefix P budget (i + P) resp1
            (acc ++ resp1.Records) s1).outcome,
          calls := (pageQuery pagePrefix P i, .ok resp1) ::
            (drainLoop c params pagePrefix P budget (i + P) resp1
              (acc ++ resp1.Records) s1).calls,
          state := (drainLoop c params pagePrefix P budget (i + P) resp1
            (acc ++ resp1.Records) s1).state } := by
  rw [drainLoop]
  simp [h, hq]


/-- The queries of the loop are the page queries for the counters
`i, i + P, i + 2P, …`, in that order. -/
theorem drainLoop_queries {σ Prm E R : Type} (c : QueryClient σ Prm E R) (params : Prm)
    (pagePrefix : String) (P : Int) :
    ∀ (budget : Nat) (i : Int) (resp : QueryResponse R) (acc : List R) (s : σ),
      (drainLoop c params pagePrefix P budget i resp acc s).calls.map Prod.fst
        = (List.range (drainLoop c params pagePrefix P budget i resp acc s).calls.length).map
            (fun k : Nat => pageQuery pagePrefix P (i + k * P)) := by
  intro budget
  induction budget with
  | zero =>
    intro i resp acc s
    by_cases h : i < resp.TotalCount
    · rw [drainLoop_zero _ _ _ _ _ _ _ _ h]; rfl
    · rw [drainLoop_exit _ _ _ _ _ _ _ _ _ h]; rfl
  | succ b ih =>
    intro i resp acc s
    by_cases h : i < resp.TotalCount
    · rcases hq : c.query s params (pageQuery pagePrefix P i) resp with ⟨s1, r⟩
      cases r with
      | error err =>
        rw [drainLoop_error _ _ _ _ _ _ _ _ _ _ _ h hq]
        simp [List.range_succ_eq_map]
      | ok resp1 =>
        rw [drainLoop_ok _ _ _ _ _ _ _ _ _ _ _ h hq]
        simp only [List.map_cons, List.length_cons, List.range_succ_eq_map, List.map_map]
        rw [ih]
        simp only [List.length_map, List.length_range, Nat.cast_zero, zero_mul, add_zero]
        congr 1
        apply List.map_congr_left
        intro k _
        simp only [Function.comp, Nat.succ_eq_add_one, Nat.cast_add, Nat.cast_one]
        congr 1
        ring
    · rw [drainLoop_exit _ _ _ _ _ _ _ _ _ h]; rfl

/-- A failing call ends the loop: it is the last call and its error is the
outcome. -/
theorem drainLoop_abort {σ Prm E R : Type} (c : QueryClient σ Prm E R) (params : Prm)
    (pagePrefix : String) (P : Int) :
    ∀ (budget : Nat) (i : Int) (resp : QueryResponse R) (acc : List R) (s : σ)
      (j : Nat) (q : String) (err : E),
      (drainLoop c params pagePrefix P budget i resp acc s).calls[j]? = some (q, .error err) →
      (drainLoop c params pagePrefix P budget i resp acc s).outcome = .failed err ∧
      (drainLoop c params pagePrefix P budget i resp acc s).calls.length = j + 1 := by
  intro budget
  induction budget with
  | zero =>
    intro i resp acc s j q err
    by_cases h : i < resp.TotalCount
    · rw [drainLoop_zero _ _ _ _ _ _ _ _ h]; simp
    · rw [drainLoop_exit _ _ _ _ _ _ _ _ _ h]; simp
  | succ b ih =>
    intro i resp acc s j q err
    by_cases h : i < resp.TotalCount
    · rcases hq : c.query s params (pageQuery pagePrefix P i) resp with ⟨s1, r⟩
      cases r with
      | error err1 =>
        rw [drainLoop_error _ _ _ _ _ _ _ _ _ _ _ h hq]
        cases j with
        | zero =>
          intro hj
          simp only [List.getElem?_cons_zero, Option.some.injEq, Prod.mk.injEq,
            Except.error.injEq] at hj
          simp [hj.2]
        | succ j => simp
      | ok resp1 =>
        rw [drainLoop_ok _ _ _ _ _ _ _ _ _ _ _ h hq]
        cases j with
        | zero => simp
        | succ j =>
          intro hj
          simp only [List.getElem?_cons_succ] at hj
          have := ih _ _ _ _ j q err hj
          simp [this.1, this.2]
    · rw [drainLoop_exit _ _ _ _ _ _ _ _ _ h]; simp

/-- A loop that returns hands back the accumulator followed by the record
arrays the response struct held after each call; all its calls succeeded. -/
theorem drainLoop_returned {σ Prm E R : Type} (c : QueryClient σ Prm E R) (params : Prm)
    (pagePrefix : String) (P : Int) :
    ∀ (budget : Nat) (i : Int) (resp : QueryResponse R) (acc : List R) (s : σ) (rs : List R),
      (drainLoop c params pagePrefix P budget i resp acc s).outcome = .returned rs →
      rs = acc ++ recordsAfter (drainLoop c params pagePrefix P budget i resp acc s).calls := by
  intro budget
  induction budget with
  | zero =>
    intro i resp acc s rs
    by_cases h : i < resp.TotalCount
    · rw [drainLoop_zero _ _ _ _ _ _ _ _ h]; simp
    · rw [drainLoop_exit _ _ _ _ _ _ _ _ _ h]
      intro hr
      simp only [Outcome.returned.injEq] at hr
      simp [recordsAfter, hr]
  | succ b ih =>
    intro i resp acc s rs
    by_cases h : i < resp.TotalCount
    · rcases hq : c.query s params (pageQuery pagePrefix P i) resp with ⟨s1, r⟩
      cases r with
      | error err1 =>
        rw [drainLoop_error _ _ _ _ _ _ _ _ _ _ _ h hq]
        simp
      | ok resp1 =>
        rw [drainLoop_ok _ _ _ _ _ _ _ _ _ _ _ h hq]
        intro hr
        have := ih _ _ _ _ rs hr
        simp only [recordsAfter]
        rw [this, List.append_assoc]
    · rw [drainLoop_exit _ _ _ _ _ _ _ _ _ h]
      intro hr
      simp only [Outcome.returned.injEq] at hr
      simp [recordsAfter, hr]


theorem Entity.findAll_eq {σ Prm E R : Type} (e : Entity) (P capLimit : Int)
    (c : QueryClient σ Prm E R) (params : Prm) (budget : Nat) (s : σ) :
    e.findAll P capLimit c params budget s
      = drainAll e.countQuery e.pagePrefix P capLimit c params budget s := by
  cases e <;> rfl

theorem Entity.pageText_eq (e : Entity) (P i : Int) :
    pageQuery e.pagePrefix P i = e.pageText (i + 1) P := rfl

theorem pageCount_zero (P : Nat) (hP : 0 < P) : pageCount 0 P = 0 := by
  unfold pageCount
  apply Nat.div_eq_of_lt
  omega

theorem pageCount_step (N P : Nat) (hP : 0 < P) (hN : 0 < N) :
    pageCount N P = pageCount (N - P) P + 1 := by
  unfold pageCount
  by_cases h : P ≤ N
  · have : N + P - 1 = (N - P + P - 1) + P := by omega
    rw [this, Nat.add_div_right _ hP]
  · have h1 : N - P = 0 := by omega
    rw [h1]
    have h2 : (0 + P - 1) / P = 0 := Nat.div_eq_of_lt (by omega)
    rw [h2]
    have h3 : N + P - 1 = (N - 1) + P := by omega
    rw [h3, Nat.add_div_right _ hP, Nat.div_eq_of_lt (by omega)]

/-- Page loop against a backend whose page calls succeed and leave `TotalCount`
at `N`: from counter `i` the loop issues `pageCount (N - i) P` calls and
returns, whatever budget at least that large it is given. -/
theorem drainLoop_steady {σ Prm E R : Type} (c : QueryClient σ Prm E R) (params : Prm)
    (pagePrefix : String) (P N : Nat) (hP : 0 < P)
    (hpage : ∀ (st : σ) (resp : QueryResponse R) (i : Nat), i < N → resp.TotalCount = (N : Int) →
      ∃ st1 resp1, c.query st params (pageQuery pagePrefix (P : Int) (i : Int)) resp
        = (st1, .ok resp1) ∧ resp1.TotalCount = (N : Int)) :
    ∀ (d i : Nat) (budget : Nat) (resp : QueryResponse R) (acc : List R) (s : σ),
      N - i ≤ d → resp.TotalCount = (N : Int) → pageCount (N - i) P ≤ budget →
      (∃ rs, (drainLoop c params pagePrefix (P : Int) budget (i : Int) resp acc s).outcome
          = .returned rs) ∧
      (drainLoop c params pagePrefix (P : Int) budget (i : Int) resp acc s).calls.length
          = pageCount (N - i) P := by
  intro d
  induction d with
  | zero =>
    intro i budget resp acc s hd hN _
    have hi : ¬ ((i : Int) < resp.TotalCount) := by rw [hN]; omega
    rw [drainLoop_exit _ _ _ _ _ _ _ _ _ hi]
    have : N - i = 0 := by omega
    simp [this, pageCount_zero P hP]
  | succ d ih =>
    intro i budget resp acc s hd hN hb
    by_cases hlt : i < N
    · have hi : (i : Int) < resp.TotalCount := by rw [hN]; exact_mod_cast hlt
      have hstep := pageCount_step (N - i) P hP (by omega)
      rw [hstep] at hb
      obtain ⟨b, rfl⟩ : ∃ b, budget = b + 1 := ⟨budget - 1, by omega⟩
      obtain ⟨st1, resp1, hq, hN1⟩ := hpage s resp i hlt hN
      rw [drainLoop_ok _ _ _ _ _ _ _ _ _ _ _ hi hq]
      have hcast : (i : Int) + (P : Int) = ((i + P : Nat) : Int) := by push_cast; ring
      rw [hcast]
      have hsub : N - i - P = N - (i + P) := by omega
      have := ih (i + P) b resp1 (acc ++ resp1.Records) st1 (by omega) hN1
        (by rw [← hsub]; omega)
      refine ⟨this.1, ?_⟩
      simp only [List.length_cons, this.2, hstep, hsub]
    · have hi : ¬ ((i : Int) < resp.TotalCount) := by rw [hN]; omega
      rw [drainLoop_exit _ _ _ _ _ _ _ _ _ hi]
      have : N - i = 0 := by omega
      simp [this, pageCount_zero P hP]


/-! ## Properties of every run -/

theorem Entity.count_ne_page (e : Entity) (P i : Int) :
    pageQuery e.pagePrefix P i ≠ e.countQuery := by
  intro h
  have hd := congrArg (fun t : String => t.data.take 8) h
  unfold pageQuery at hd
  simp only [String.data_append, List.append_assoc] at hd
  cases e <;> simp [Entity.name, Entity.countQuery, Entity.pagePrefix] at hd


/-- Once the loop has ended, a larger budget changes nothing. -/
theorem drainLoop_stable {σ Prm E R : Type} (c : QueryClient σ Prm E R) (params : Prm)
    (pagePrefix : String) (P : Int) :
    ∀ (budget : Nat) (i : Int) (resp : QueryResponse R) (acc : List R) (s : σ) (extra : Nat),
      (drainLoop c params pagePrefix P budget i resp acc s).outcome ≠ .pending →
      drainLoop c params pagePrefix P (budget + extra) i resp acc s
        = drainLoop c params pagePrefix P budget i resp acc s := by
  intro budget
  induction budget with
  | zero =>
    intro i resp acc s extra
    by_cases h : i < resp.TotalCount
    · rw [drainLoop_zero _ _ _ _ _ _ _ _ h]; simp
    · intro _
      rw [drainLoop_exit _ _ _ _ _ _ _ _ _ h, drainLoop_exit _ _ _ _ _ _ _ _ _ h]
  | succ b ih =>
    intro i resp acc s extra
    by_cases h : i < resp.TotalCount
    · rcases hq : c.query s params (pageQuery pagePrefix P i) resp with ⟨s1, r⟩
      have hb : b + 1 + extra = (b + extra) + 1 := by omega
      cases r with
      | error err1 =>
        intro _
        rw [hb, drainLoop_error _ _ _ _ _ _ _ _ _ _ _ h hq,
          drainLoop_error _ _ _ _ _ _ _ _ _ _ _ h hq]
      | ok resp1 =>
        rw [hb, drainLoop_ok _ _ _ _ _ _ _ _ _ _ _ h hq, drainLoop_ok _ _ _ _ _ _ _ _ _ _ _ h hq]
        intro hne
        rw [ih _ _ _ _ extra hne]
    · intro _
      rw [drainLoop_exit _ _ _ _ _ _ _ _ _ h, drainLoop_exit _ _ _ _ _ _ _ _ _ h]

/-- A failing call ends the accessor: it is the last call, its error is the
outcome, and a larger budget changes nothing. -/
theorem drainAll_abort {σ Prm E R : Type} (countQuery pagePrefix : String) (P capLimit : Int)
    (c : QueryClient σ Prm E R) (params : Prm) (budget : Nat) (s : σ)
    (k : Nat) (q : String) (err : E)
    (h : (drainAll countQuery pagePrefix P capLimit c params budget s).calls[k]?
      = some (q, .error err)) :
    (drainAll countQuery pagePrefix P capLimit c params budget s).outcome = .failed err ∧
    (drainAll countQuery pagePrefix P capLimit c params budget s).calls.length = k + 1 ∧
    ∀ extra, drainAll countQuery pagePrefix P capLimit c params (budget + extra) s
      = drainAll countQuery pagePrefix P capLimit c params budget s := by
  unfold drainAll at h ⊢
  rcases hq : c.query s params countQuery QueryResponse.zero with ⟨s1, r⟩
  rw [hq] at h
  cases r with
  | error err1 =>
    simp only at h ⊢
    cases k with
    | zero =>
      simp only [List.getElem?_cons_zero, Option.some.injEq, Prod.mk.injEq,
        Except.error.injEq] at h
      simp [h.2]
    | succ k => simp at h
  | ok resp =>
    simp only at h ⊢
    by_cases h0 : resp.TotalCount = 0
    · simp only [h0, if_true] at h
      cases k <;> simp at h
    · by_cases hneg : resp.TotalCount < 0 ∨ capLimit < resp.TotalCount
      · simp only [h0, hneg, if_true, if_false] at h
        cases k <;> simp at h
      · simp only [h0, hneg, if_false] at h ⊢
        cases k with
        | zero => simp at h
        | succ k =>
          simp only [List.getElem?_cons_succ] at h
          have := drainLoop_abort c params pagePrefix P budget 0 resp [] s1 k q err h
          refine ⟨this.1, by simp [this.2], ?_⟩
          intro extra
          rw [drainLoop_stable c params pagePrefix P budget 0 resp [] s1 extra
            (by rw [this.1]; simp)]


/-- Against the growing backend with page size 1 the loop never ends: each
page response raises the bound the next test reads. -/
theorem drainLoop_growing (countQuery pagePrefix : String)
    (hne : ∀ i : Int, pageQuery pagePrefix 1 i ≠ countQuery) :
    ∀ (budget : Nat) (i : Int) (resp : QueryResponse String) (acc : List String),
      resp.TotalCount = i + 1 →
      (drainLoop (growingClient countQuery) () pagePrefix 1 budget i resp acc ()).outcome
          = .pending ∧
      (drainLoop (growingClient countQuery) () pagePrefix 1 budget i resp acc ()).calls.length
          = budget := by
  intro budget
  induction budget with
  | zero =>
    intro i resp acc h
    rw [drainLoop_zero _ _ _ _ _ _ _ _ (by omega)]
    exact ⟨rfl, rfl⟩
  | succ b ih =>
    intro i resp acc h
    have hq : (growingClient countQuery).query () () (pageQuery pagePrefix 1 i) resp
        = ((), .ok (decodeInto (wholeDecoder "") () resp
            { Records := none, MaxResults := none, StartPosition := none,
              TotalCount := some (resp.TotalCount + 1) }).2) := by
      simp [growingClient, hne i]
    rw [drainLoop_ok _ _ _ _ _ _ _ _ _ _ _ (by omega) hq]
    have := ih (i + 1) (decodeInto (wholeDecoder "") () resp
        { Records := none, MaxResults := none, StartPosition := none,
          TotalCount := some (resp.TotalCount + 1) }).2
      (acc ++ (decodeInto (wholeDecoder "") () resp
        { Records := none, MaxResults := none, StartPosition := none,
          TotalCount := some (resp.TotalCount + 1) }).2.Records)
      (by simp [decodeInto, h])
    exact ⟨this.1, by simp [this.2]⟩


/-- What an accessor that returns hands back: the record arrays the response
struct held after each page call, concatenated in call order. -/
theorem drainAll_returned {σ Prm E R : Type} (countQuery pagePrefix : String)
    (P capLimit : Int)
    (c : QueryClient σ Prm E R) (params : Prm) (budget : Nat) (s : σ) (rs : List R)
    (h : (drainAll countQuery pagePrefix P capLimit c params budget s).outcome = .returned rs) :
    rs = recordsAfter (drainAll countQuery pagePrefix P capLimit c params budget s).pageCalls := by
  unfold drainAll Run.pageCalls at *
  rcases hq : c.query s params countQuery QueryResponse.zero with ⟨s1, r⟩
  rw [hq] at h
  cases r with
  | error err => simp at h
  | ok resp =>
    simp only at h ⊢
    by_cases h0 : resp.TotalCount = 0
    · simp only [h0, if_true, Outcome.returned.injEq] at h
      simp [h0, recordsAfter, ← h]
    · by_cases hneg : resp.TotalCount < 0 ∨ capLimit < resp.TotalCount
      · simp [h0, hneg] at h
      · simp only [h0, hneg, if_false] at h ⊢
        have := drainLoop_returned c params pagePrefix P budget 0 resp [] s1 rs h
        simpa using this


/-- The page-window sequence when no page response changes `TotalCount`: if
the count call reports `N > 0`, and every page call succeeds and leaves
`TotalCount` at `N`, then with any budget of at least `ceil(N/P)` the accessor
returns, and its page queries are exactly those for the start positions
`1 + k * P`, `k = 0, …, ceil(N/P) - 1`, in that order. -/
theorem findAll_steady {σ Prm E R : Type} (e : Entity) (P N : Nat) (hP : 0 < P) (hN : 0 < N)
    (capLimit : Int) (hcap : (N : Int) ≤ capLimit)
    (c : QueryClient σ Prm E R) (params : Prm) (s s1 : σ) (resp0 : QueryResponse R)
    (hcount : c.query s params e.countQuery QueryResponse.zero = (s1, .ok resp0))
    (hN0 : resp0.TotalCount = (N : Int))
    (hpage : ∀ (st : σ) (resp : QueryResponse R) (i : Nat), i < N → resp.TotalCount = (N : Int) →
      ∃ st1 resp1, c.query st params (pageQuery e.pagePrefix (P : Int) (i : Int)) resp
        = (st1, .ok resp1) ∧ resp1.TotalCount = (N : Int))
    (budget : Nat) (hb : pageCount N P ≤ budget) :
    (∃ rs, (e.findAll (P : Int) capLimit c params budget s).outcome = .returned rs) ∧
    (e.findAll (P : Int) capLimit c params budget s).pageCalls.map Prod.fst
      = (List.range (pageCount N P)).map
          (fun k : Nat => e.pageText (1 + (k : Int) * (P : Int)) (P : Int)) := by
  have hloop := drainLoop_steady c params e.pagePrefix P N hP hpage N 0 budget resp0 [] s1
    (by omega) hN0 (by simpa using hb)
  have hq := drainLoop_queries c params e.pagePrefix (P : Int) budget 0 resp0 [] s1
  have h0 : resp0.TotalCount ≠ 0 := by rw [hN0]; exact_mod_cast (Nat.pos_iff_ne_zero.mp hN)
  have hneg : ¬ (resp0.TotalCount < 0 ∨ capLimit < resp0.TotalCount) := by rw [hN0]; omega
  rw [Entity.findAll_eq]
  unfold drainAll Run.pageCalls
  simp only [hcount, h0, hneg, if_false, List.tail_cons]
  refine ⟨by simpa using hloop.1, ?_⟩
  have hlen : (drainLoop c params e.pagePrefix (P : Int) budget 0 resp0 [] s1).calls.length
      = pageCount N P := by simpa using hloop.2
  have hq' := hq
  simp only [Nat.cast_zero] at hq'
  rw [hq', hlen]
  apply List.map_congr_left
  intro k _
  rw [Entity.pageText_eq]
  congr 1
  ring


/-! ## Decimal text is injective -/

theorem digitChar_value (d : Nat) (h : d < 10) : (Nat.digitChar d).toNat - 48 = d := by
  interval_cases d <;> rfl

theorem toDigitsCore_value :
    ∀ (fuel n : Nat) (ds : List Char), n < fuel →
      digitsValue 0 (Nat.toDigitsCore 10 fuel n ds) = digitsValue n ds := by
  intro fuel
  induction fuel with
  | zero => intro n ds h; omega
  | succ f ih =>
    intro n ds h
    simp only [Nat.toDigitsCore]
    by_cases h0 : n / 10 = 0
    · simp only [h0, if_true]
      have hn : n < 10 := by omega
      simp only [digitsValue, List.foldl_cons, Nat.mul_zero, Nat.zero_add]
      rw [digitChar_value _ (Nat.mod_lt _ (by decide)), Nat.mod_eq_of_lt hn]
    · simp only [h0, if_false]
      rw [ih (n / 10) _ (by omega)]
      simp only [digitsValue, List.foldl_cons]
      rw [digitChar_value _ (Nat.mod_lt _ (by decide))]
      congr 1
      omega

theorem natRepr_injective (a b : Nat) (h : Nat.repr a = Nat.repr b) : a = b := by
  have hd : Nat.toDigits 10 a = Nat.toDigits 10 b := by
    have := congrArg String.data h
    simpa [Nat.repr, List.asString] using this
  have ha := toDigitsCore_value (a + 1) a [] (by omega)
  have hb := toDigitsCore_value (b + 1) b [] (by omega)
  simp only [digitsValue, List.foldl_nil] at ha hb
  unfold Nat.toDigits at hd
  rw [← ha, ← hb, hd]

theorem pageQuery_injective (pagePrefix : String) (P : Int) (i j : Nat)
    (h : pageQuery pagePrefix P (i : Int) = pageQuery pagePrefix P (j : Int)) : i = j := by
  unfold pageQuery at h
  have hd := congrArg String.data h
  simp only [String.data_append, List.append_assoc] at hd
  have h1 := List.append_cancel_left hd
  rw [← List.append_assoc, ← List.append_assoc (Itoa _).data] at h1
  have h2 := List.append_cancel_right h1
  have h3 := List.append_cancel_right h2
  have h4 : Itoa ((i : Int) + 1) = Itoa ((j : Int) + 1) := String.ext h3
  have hi : ((i : Int) + 1) = Int.ofNat (i + 1) := by simp
  have hj : ((j : Int) + 1) = Int.ofNat (j + 1) := by simp
  rw [hi, hj] at h4
  simp only [Itoa] at h4
  have := natRepr_injective _ _ h4
  omega


/-! ## A list backend whose bodies carry whole records -/

theorem decodeElements_whole {R : Type} (zero : R) :
    ∀ (bs backing : List R) (h : Unit),
      decodeElements (wholeDecoder zero) h backing bs = (h, bs) := by
  intro bs
  induction bs with
  | nil => intro backing h; rfl
  | cons b bs ih =>
    intro backing h
    have := ih backing.tail h
    simp only [decodeElements]
    rw [show (wholeDecoder zero).into h (backing.headD (wholeDecoder zero).zero) b = (h, b)
      from rfl]
    simp only [this]

/-- Decoding a body of whole records: the record array of the struct becomes
the array of the body. -/
theorem decodeInto_whole_records {R : Type} (zero : R) (h : Unit) (resp : QueryResponse R)
    (rs : List R) (m st : Option Int) :
    (decodeInto (wholeDecoder zero) h resp
        { Records := some rs, MaxResults := m, StartPosition := st, TotalCount := none }).2.Records
      = rs ∧
    (decodeInto (wholeDecoder zero) h resp
        { Records := some rs, MaxResults := m, StartPosition := st,
          TotalCount := none }).2.TotalCount
      = resp.TotalCount := by
  cases rs with
  | nil => exact ⟨rfl, rfl⟩
  | cons b bs =>
    simp only [decodeInto, decodeElements_whole, Option.getD_none, and_self]

/-- The list backend answers the page query for the counter `i` with the
window that starts at position `i + 1`, and leaves `TotalCount` as it is. -/
theorem listClient_whole_page {R : Type} (zero : R) (countQuery pagePrefix : String)
    (recs : List R) (P : Nat)
    (hne : ∀ i : Nat, pageQuery pagePrefix (P : Int) (i : Int) ≠ countQuery)
    (h : Unit) (prm : Unit) (resp : QueryResponse R) (i : Nat) (hi : i < recs.length) :
    ∃ resp1, (listClient (wholeDecoder zero) countQuery pagePrefix recs P).query h prm
        (pageQuery pagePrefix (P : Int) (i : Int)) resp = ((), .ok resp1) ∧
      resp1.Records = window recs (i + 1) P ∧ resp1.TotalCount = resp.TotalCount := by
  have hfind : (List.range recs.length).find?
      (fun (j : Nat) => decide (pageQuery pagePrefix (P : Int) (i : Int)
        = pageQuery pagePrefix (Int.ofNat P) (Int.ofNat j))) = some i := by
    rw [List.find?_range_eq_some]
    refine ⟨by simp, by simpa using hi, ?_⟩
    intro j hj
    simp only [Int.ofNat_eq_coe, Bool.not_eq_true', decide_eq_false_iff_not]
    intro h
    have := pageQuery_injective _ _ _ _ h
    omega
  have hd := decodeInto_whole_records zero h resp (window recs (i + 1) P)
    (some (Int.ofNat P)) (some (Int.ofNat i + 1))
  simp only [listClient, hne i, if_false, hfind]
  exact ⟨_, rfl, hd.1, hd.2⟩

/-- The list backend answers the count query with the number of its records. -/
theorem listClient_whole_count {R : Type} (zero : R) (countQuery pagePrefix : String)
    (recs : List R) (P : Nat) (h : Unit) (prm : Unit) (resp : QueryResponse R) :
    ∃ resp1, (listClient (wholeDecoder zero) countQuery pagePrefix recs P).query h prm
        countQuery resp = ((), .ok resp1) ∧ resp1.TotalCount = (recs.length : Int) := by
  simp [listClient, decodeInto]

/-- Page loop against the list backend whose bodies carry whole records: from
counter `i` the loop returns the accumulator followed by the records from
position `i` on, after `pageCount (recs.length - i) P` calls. -/
theorem drainLoop_listClient_whole {R : Type} (zero : R) (countQuery pagePrefix : String)
    (recs : List R) (P : Nat) (hP : 0 < P)
    (hne : ∀ i : Nat, pageQuery pagePrefix (P : Int) (i : Int) ≠ countQuery) :
    ∀ (d i : Nat) (budget : Nat) (resp : QueryResponse R) (acc : List R),
      recs.length - i ≤ d → resp.TotalCount = (recs.length : Int) →
      pageCount (recs.length - i) P ≤ budget →
      (drainLoop (listClient (wholeDecoder zero) countQuery pagePrefix recs P) () pagePrefix
          (P : Int) budget (i : Int) resp acc ()).outcome
          = .returned (acc ++ recs.drop i) ∧
      (drainLoop (listClient (wholeDecoder zero) countQuery pagePrefix recs P) () pagePrefix
          (P : Int) budget (i : Int) resp acc ()).calls.length
          = pageCount (recs.length - i) P := by
  intro d
  induction d with
  | zero =>
    intro i budget resp acc hd hN _
    have hi : ¬ ((i : Int) < resp.TotalCount) := by rw [hN]; omega
    rw [drainLoop_exit _ _ _ _ _ _ _ _ _ hi]
    have h0 : recs.length - i = 0 := by omega
    have hdrop : recs.drop i = [] := List.drop_eq_nil_of_le (by omega)
    simp [h0, pageCount_zero P hP, hdrop]
  | succ d ih =>
    intro i budget resp acc hd hN hb
    by_cases hlt : i < recs.length
    · have hi : (i : Int) < resp.TotalCount := by rw [hN]; exact_mod_cast hlt
      have hstep := pageCount_step (recs.length - i) P hP (by omega)
      rw [hstep] at hb
      obtain ⟨b, rfl⟩ : ∃ b, budget = b + 1 := ⟨budget - 1, by omega⟩
      obtain ⟨resp1, hq, hrec, hN1⟩ :=
        listClient_whole_page zero countQuery pagePrefix recs P hne () () resp i hlt
      rw [drainLoop_ok _ _ _ _ _ _ _ _ _ _ _ hi hq]
      have hcast : (i : Int) + (P : Int) = ((i + P : Nat) : Int) := by push_cast; ring
      rw [hcast]
      have hsub : recs.length - i - P = recs.length - (i + P) := by omega
      have := ih (i + P) b resp1 (acc ++ resp1.Records) (by omega) (by rw [hN1, hN])
        (by rw [← hsub]; omega)
      have hjoin : acc ++ resp1.Records ++ recs.drop (i + P) = acc ++ recs.drop i := by
        rw [hrec, window, List.append_assoc, Nat.add_sub_cancel, ← List.drop_drop,
          List.take_append_drop]
      refine ⟨?_, ?_⟩
      · simp only [this.1, hjoin]
      · simp only [List.length_cons, this.2, hstep, hsub]
    · have hi : ¬ ((i : Int) < resp.TotalCount) := by rw [hN]; omega
      rw [drainLoop_exit _ _ _ _ _ _ _ _ _ hi]
      have h0 : recs.length - i = 0 := by omega
      have hdrop : recs.drop i = [] := List.drop_eq_nil_of_le (by omega)
      simp [h0, pageCount_zero P hP, hdrop]

/-- Where sharing one response struct does no harm, the full-drain accessors
are complete: against a list backend whose records hold no pointer and whose
page bodies carry every record whole and no `TotalCount`, for every page size
`P > 0` and every list of `N` records that `make` accepts, the accessor
returns exactly the list after `ceil(N/P)` page calls, given a budget of at
least that many iterations. -/
theorem findAll_listClient_whole {R : Type} (e : Entity) (zero : R) (recs : List R) (P : Nat)
    (hP : 0 < P) (capLimit : Int) (hcap : (recs.length : Int) ≤ capLimit)
    (budget : Nat) (hb : pageCount recs.length P ≤ budget) :
    (e.findAll (P : Int) capLimit
        (listClient (wholeDecoder zero) e.countQuery e.pagePrefix recs P) () budget ()).outcome
      = .returned recs ∧
    (e.findAll (P : Int) capLimit
        (listClient (wholeDecoder zero) e.countQuery e.pagePrefix recs P) () budget
        ()).pageCalls.length
      = pageCount recs.length P := by
  obtain ⟨resp0, hq, hN⟩ :=
    listClient_whole_count zero e.countQuery e.pagePrefix recs P () () QueryResponse.zero
  rw [Entity.findAll_eq]
  unfold drainAll Run.pageCalls
  simp only [hq]
  by_cases h0 : resp0.TotalCount = 0
  · have hlen : recs.length = 0 := by rw [hN] at h0; exact_mod_cast h0
    have hnil : recs = [] := List.length_eq_zero.mp hlen
    simp [h0, hnil, pageCount_zero P hP]
  · have hneg : ¬ (resp0.TotalCount < 0 ∨ capLimit < resp0.TotalCount) := by rw [hN]; omega
    simp only [h0, hneg, if_false, List.tail_cons]
    have := drainLoop_listClient_whole zero e.countQuery e.pagePrefix recs P hP
      (fun i => Entity.count_ne_page e _ _) recs.length 0 budget resp0 [] (by omega) hN
      (by simpa using hb)
    simpa using this


/-! ## The calls a run lists are the calls the transport receives -/

theorem drainLoop_recorded {σ Prm E R : Type} (c : QueryClient σ Prm E R) (params : Prm)
    (pagePrefix : String) (P : Int) :
    ∀ (budget : Nat) (i : Int) (resp : QueryResponse R) (acc : List R) (s : σ)
      (log : List (QueryCall E R)),
      (drainLoop (recordingQuery c) params pagePrefix P budget i resp acc (s, log)).state
        = ((drainLoop c params pagePrefix P budget i resp acc s).state,
            log ++ (drainLoop c params pagePrefix P budget i resp acc s).calls) ∧
      (drainLoop (recordingQuery c) params pagePrefix P budget i resp acc (s, log)).outcome
        = (drainLoop c params pagePrefix P budget i resp acc s).outcome := by
  intro budget
  induction budget with
  | zero =>
    intro i resp acc s log
    by_cases h : i < resp.TotalCount
    · rw [drainLoop_zero _ _ _ _ _ _ _ _ h, drainLoop_zero _ _ _ _ _ _ _ _ h]; simp
    · rw [drainLoop_exit _ _ _ _ _ _ _ _ _ h, drainLoop_exit _ _ _ _ _ _ _ _ _ h]; simp
  | succ b ih =>
    intro i resp acc s log
    by_cases h : i < resp.TotalCount
    · rcases hq : c.query s params (pageQuery pagePrefix P i) resp with ⟨s1, r⟩
      cases r with
      | error err =>
        have hr : (recordingQuery c).query (s, log) params (pageQuery pagePrefix P i) resp
            = ((s1, log ++ [(pageQuery pagePrefix P i, .error err)]), .error err) := by
          simp [recordingQuery, hq]
        rw [drainLoop_error _ _ _ _ _ _ _ _ _ _ _ h hq, drainLoop_error _ _ _ _ _ _ _ _ _ _ _ h hr]
        simp
      | ok resp1 =>
        have hr : (recordingQuery c).query (s, log) params (pageQuery pagePrefix P i) resp
            = ((s1, log ++ [(pageQuery pagePrefix P i, .ok resp1)]), .ok resp1) := by
          simp [recordingQuery, hq]
        rw [drainLoop_ok _ _ _ _ _ _ _ _ _ _ _ h hq, drainLoop_ok _ _ _ _ _ _ _ _ _ _ _ h hr]
        have := ih (i + P) resp1 (acc ++ resp1.Records) s1
          (log ++ [(pageQuery pagePrefix P i, .ok resp1)])
        simp [this.1, this.2]
    · rw [drainLoop_exit _ _ _ _ _ _ _ _ _ h, drainLoop_exit _ _ _ _ _ _ _ _ _ h]; simp

/-- A transport that writes its calls down ends an accessor run with the list
of calls the run reports, and the outcome is that of the plain transport. -/
theorem drainAll_recorded {σ Prm E R : Type} (countQuery pagePrefix : String)
    (P capLimit : Int) (c : QueryClient σ Prm E R) (params : Prm) (budget : Nat) (s : σ) :
    (drainAll countQuery pagePrefix P capLimit (recordingQuery c) params budget (s, [])).state
      = ((drainAll countQuery pagePrefix P capLimit c params budget s).state,
          (drainAll countQuery pagePrefix P capLimit c params budget s).calls) ∧
    (drainAll countQuery pagePrefix P capLimit (recordingQuery c) params budget (s, [])).outcome
      = (drainAll countQuery pagePrefix P capLimit c params budget s).outcome := by
  unfold drainAll
  rcases hq : c.query s params countQuery QueryResponse.zero with ⟨s1, r⟩
  cases r with
  | error err =>
    have hr : (recordingQuery c).query (s, []) params countQuery QueryResponse.zero
        = ((s1, [(countQuery, .error err)]), .error err) := by
      simp [recordingQuery, hq]
    simp [hr]
  | ok resp =>
    have hr : (recordingQuery c).query (s, []) params countQuery QueryResponse.zero
        = ((s1, [(countQuery, .ok resp)]), .ok resp) := by
      simp [recordingQuery, hq]
    simp only [hr]
    by_cases h0 : resp.TotalCount = 0
    · simp [h0]
    · by_cases hneg : resp.TotalCount < 0 ∨ capLimit < resp.TotalCount
      · simp [h0, hneg]
      · simp only [h0, hneg, if_false]
        have := drainLoop_recorded c params pagePrefix P budget 0 resp [] s1
          [(countQuery, .ok resp)]
        simp [this.1, this.2]

/-! ## Claims on the full-drain accessors -/

/-- C1, the code at two failing inputs, each a backend that holds two records
in ascending order of `Id`, answers the count query with 2 and the page query
for start position `s` with the record at position `s`; the page size is 1.
(1) Journal entries with the identifiers "1" and "2": `FindJournalEntries`
issues the two page queries and returns two entries, but both hold the same
`Id` pointer and the same `SyncToken` pointer, the second page was decoded
into the cells they point to, and the caller reads the identifier "2" and the
token "3" from both: the entry "1" is lost and the entry "2" is there twice.
(2) Payment methods "1" (with `Type` CREDIT_CARD) and "2" (whose body has no
`Type` member): `FindPaymentMethods` returns the second record with the
`Type` of the first, because the second page was decoded into the element
that still held the first; the by-page accessor, which decodes into a fresh
struct, returns the second record as the backend holds it. -/
theorem C1_returned_records_overwritten_by_later_page :
    ([journalEntryBody "1" "0", journalEntryBody "2" "3"].map JournalEntryBody.Id
        = [.value "1", .value "2"] ∧
      (FindJournalEntries 1 sampleCapLimit
          (listClient (journalEntryDecoder ()) Entity.JournalEntry.countQuery
            Entity.JournalEntry.pagePrefix
            [journalEntryBody "1" "0", journalEntryBody "2" "3"] 1) () 2 []).pageCalls.map
          Prod.fst
        = ["SELECT * FROM JournalEntry ORDERBY Id STARTPOSITION 1 MAXRESULTS 1",
           "SELECT * FROM JournalEntry ORDERBY Id STARTPOSITION 2 MAXRESULTS 1"] ∧
      (FindJournalEntries 1 sampleCapLimit
          (listClient (journalEntryDecoder ()) Entity.JournalEntry.countQuery
            Entity.JournalEntry.pagePrefix
            [journalEntryBody "1" "0", journalEntryBody "2" "3"] 1) () 2 []).outcome
        = .returned
            [{ StoredJournalEntry.zero () with SyncToken := some 0, Id := some 1, Domain := "QBO" },
             { StoredJournalEntry.zero () with SyncToken := some 0, Id := some 1, Domain := "QBO" }] ∧
      (FindJournalEntries 1 sampleCapLimit
          (listClient (journalEntryDecoder ()) Entity.JournalEntry.countQuery
            Entity.JournalEntry.pagePrefix
            [journalEntryBody "1" "0", journalEntryBody "2" "3"] 1) () 2 []).state
        = ["3", "2"] ∧
      (FindJournalEntries 1 sampleCapLimit
          (listClient (journalEntryDecoder ()) Entity.JournalEntry.countQuery
            Entity.JournalEntry.pagePrefix
            [journalEntryBody "1" "0", journalEntryBody "2" "3"] 1) () 2 []).readField
          StoredJournalEntry.Id
        = [some "2", some "2"] ∧
      (FindJournalEntries 1 sampleCapLimit
          (listClient (journalEntryDecoder ()) Entity.JournalEntry.countQuery
            Entity.JournalEntry.pagePrefix
            [journalEntryBody "1" "0", journalEntryBody "2" "3"] 1) () 2 []).readField
          StoredJournalEntry.SyncToken
        = [some "3", some "3"]) ∧
    ((FindPaymentMethods 1 sampleCapLimit
          (listClient (paymentMethodDecoder ()) Entity.PaymentMethod.countQuery
            Entity.PaymentMethod.pagePrefix
            [paymentMethodBody "1" "Visa" "0" (.value "CREDIT_CARD"),
             paymentMethodBody "2" "Cash" "0" .absent] 1) () 2 ()).outcome
        = .returned
            [{ samplePaymentMethod "1" "Visa" "0" with «Type» := "CREDIT_CARD" },
             { samplePaymentMethod "2" "Cash" "0" with «Type» := "CREDIT_CARD" }] ∧
      (findByPage Entity.PaymentMethod.pagePrefix
          (listClient (paymentMethodDecoder ()) Entity.PaymentMethod.countQuery
            Entity.PaymentMethod.pagePrefix
            [paymentMethodBody "1" "Visa" "0" (.value "CREDIT_CARD"),
             paymentMethodBody "2" "Cash" "0" .absent] 1) () 2 1 ()).2
        = .ok [samplePaymentMethod "2" "Cash" "0"]) := by
  decide

/-- C2 (abort on failure).  For every entity with a full-drain accessor, every
backend, page size, capacity limit and budget: if the call at position `k` of
the run (position 0 is the count call, position `k ≥ 1` the k-th page call)
fails with error `err`, the accessor returns exactly `err` and no records, the
failing call is the last call issued, and a larger budget gives the same run;
a failing count call returns its error with no page call issued. -/
theorem C2_abort_on_failure {σ Prm E R : Type} (e : Entity) (P capLimit : Int)
    (c : QueryClient σ Prm E R) (params : Prm) (budget : Nat) (s : σ) :
    (∀ (k : Nat) (q : String) (err : E),
      (e.findAll P capLimit c params budget s).calls[k]? = some (q, .error err) →
        (e.findAll P capLimit c params budget s).outcome = .failed err ∧
        (e.findAll P capLimit c params budget s).calls.length = k + 1 ∧
        ∀ extra, e.findAll P capLimit c params (budget + extra) s
          = e.findAll P capLimit c params budget s) ∧
    (∀ (s1 : σ) (err : E), c.query s params e.countQuery QueryResponse.zero = (s1, .error err) →
        (e.findAll P capLimit c params budget s).outcome = .failed err ∧
        (e.findAll P capLimit c params budget s).calls = [(e.countQuery, .error err)]) := by
  refine ⟨?_, ?_⟩
  · intro k q err h
    simp only [Entity.findAll_eq] at h ⊢
    exact drainAll_abort _ _ _ _ _ _ _ _ k q err h
  · intro s1 err h
    simp [Entity.findAll_eq, drainAll, h]

/-- Witness of C2: the count call reports three records, the first page call
succeeds and the second fails with "boom": the accessor returns "boom" and
the failing call is the third and last call. -/
theorem C2_abort_on_failure_witness :
    (Entity.PaymentMethod.findAll 1 sampleCapLimit
        (scriptedClient (wholeDecoder "")
          [.ok (countBody 3), .ok (recordsBody ["1"]), .error "boom"] "end")
        () 5 (0, ())).calls[2]?
      = some ("SELECT * FROM PaymentMethod ORDERBY Id STARTPOSITION 2 MAXRESULTS 1",
          .error "boom") ∧
    (Entity.PaymentMethod.findAll 1 sampleCapLimit
        (scriptedClient (wholeDecoder "")
          [.ok (countBody 3), .ok (recordsBody ["1"]), .error "boom"] "end")
        () 5 (0, ())).outcome = .failed "boom" ∧
    (Entity.PaymentMethod.findAll 1 sampleCapLimit
        (scriptedClient (wholeDecoder "")
          [.ok (countBody 3), .ok (recordsBody ["1"]), .error "boom"] "end")
        () 5 (0, ())).calls.length = 3 :=
  ⟨by decide,
    ((C2_abort_on_failure Entity.PaymentMethod 1 sampleCapLimit
      (scriptedClient (wholeDecoder "")
        [.ok (countBody 3), .ok (recordsBody ["1"]), .error "boom"] "end")
      () 5 (0, ())).1 2
      "SELECT * FROM PaymentMethod ORDERBY Id STARTPOSITION 2 MAXRESULTS 1" "boom" (by decide)).1,
    ((C2_abort_on_failure Entity.PaymentMethod 1 sampleCapLimit
      (scriptedClient (wholeDecoder "")
        [.ok (countBody 3), .ok (recordsBody ["1"]), .error "boom"] "end")
      () 5 (0, ())).1 2
      "SELECT * FROM PaymentMethod ORDERBY Id STARTPOSITION 2 MAXRESULTS 1" "boom" (by decide)).2.1⟩

/-- C9, the code at two failing inputs.  (1) The count call reports two
records and the page size is 1, so two page queries are due; the first page
response carries `TotalCount = 1`, the loop reads its bound from the struct
that response was decoded into, and the accessor stops after one page query
with one record.  (2) The count call reports one record, the page size is 1
and every page response carries a `TotalCount` one above the previous one:
whatever the iteration budget, the loop uses it up without returning. -/
theorem C9_page_window_bound_overwritten :
    (pageCount 2 1 = 2 ∧
      ((Entity.PaymentMethod.findAll 1 sampleCapLimit
          (scriptedClient (wholeDecoder "")
            [.ok (countBody 2),
             .ok { Records := some ["1"], MaxResults := some 1, StartPosition := some 1,
                   TotalCount := some 1 },
             .ok (recordsBody ["2"])] "end")
          () 5 (0, ())).pageCalls.map Prod.fst)
        = ["SELECT * FROM PaymentMethod ORDERBY Id STARTPOSITION 1 MAXRESULTS 1"] ∧
      (Entity.PaymentMethod.findAll 1 sampleCapLimit
          (scriptedClient (wholeDecoder "")
            [.ok (countBody 2),
             .ok { Records := some ["1"], MaxResults := some 1, StartPosition := some 1,
                   TotalCount := some 1 },
             .ok (recordsBody ["2"])] "end")
          () 5 (0, ())).outcome = .returned ["1"]) ∧
    (pageCount 1 1 = 1 ∧
      ∀ budget : Nat,
        (Entity.PaymentMethod.findAll 1 sampleCapLimit
          (growingClient Entity.PaymentMethod.countQuery)
          () budget ()).outcome = .pending ∧
        (Entity.PaymentMethod.findAll 1 sampleCapLimit
          (growingClient Entity.PaymentMethod.countQuery)
          () budget ()).pageCalls.length = budget) := by
  refine ⟨by decide, by decide, ?_⟩
  intro budget
  have hq : (growingClient Entity.PaymentMethod.countQuery).query () ()
      Entity.PaymentMethod.countQuery QueryResponse.zero
      = ((), .ok (decodeInto (wholeDecoder "") () QueryResponse.zero (countBody 1)).2) := by
    simp [growingClient, countBody]
  have h := drainLoop_growing Entity.PaymentMethod.countQuery Entity.PaymentMethod.pagePrefix
    (fun i => Entity.count_ne_page Entity.PaymentMethod 1 i) budget 0
    (decodeInto (wholeDecoder "") () QueryResponse.zero (countBody 1)).2 [] (by decide)
  rw [Entity.findAll_eq]
  unfold drainAll Run.pageCalls
  rw [hq]
  have h0 : (decodeInto (wholeDecoder "") () (QueryResponse.zero : QueryResponse String)
      (countBody 1)).2.TotalCount = 1 := by decide
  have h1 : ¬ ((1 : Int) < 0 ∨ sampleCapLimit < 1) := by decide
  simp only [h0, one_ne_zero, h1, if_false, List.tail_cons]
  exact ⟨h.1, h.2⟩

/-- C10, the code at the failing input.  The count call reports two records,
the page size is 1, the first page response carries the record "1" and the
second carries no record array: the page responses carry the sequence
`["1"]`, the accessor returns `["1", "1"]`; the by-page accessor, which
decodes into a fresh struct, returns no records for the same second body. -/
theorem C10_stale_page_appended_again :
    carried [(.ok (recordsBody ["1"]) : Except String (PageBody String)), .ok emptyBody] = ["1"] ∧
    (Entity.PaymentMethod.findAll 1 sampleCapLimit
        (scriptedClient (wholeDecoder "")
          [.ok (countBody 2), .ok (recordsBody ["1"]), .ok emptyBody] "end")
        () 5 (0, ())).outcome = .returned ["1", "1"] ∧
    (findByPage Entity.PaymentMethod.pagePrefix
        (scriptedClient (wholeDecoder "")
          [.ok (countBody 2), .ok (recordsBody ["1"]), .ok emptyBody] "end")
        () 2 1 (2, ())).2 = .ok [] := by
  decide

/-! ## Claims on the update operations -/

/-- The run of `UpdatePaymentMethod` after a successful fetch: one `post` of
the caller's record with the fetched token. -/
theorem UpdatePaymentMethod_fetched {σ Prm E M : Type}
    (c : RecordClient σ Prm E (PaymentMethod M)) (params : Prm) (r existing : PaymentMethod M)
    (s s1 : σ) (hid : r.Id ≠ "")
    (hget : c.get s params ("paymentmethod/" ++ r.Id) = (s1, .ok existing)) :
    UpdatePaymentMethod c params r s
      = { result := passOn (c.post s1 params "estimate"
            { r with SyncToken := existing.SyncToken }).2
          record := { r with SyncToken := existing.SyncToken }
          calls := [.get ("paymentmethod/" ++ r.Id),
            .post "estimate" { r with SyncToken := existing.SyncToken }]
          state := (c.post s1 params "estimate" { r with SyncToken := existing.SyncToken }).1 } := by
  unfold UpdatePaymentMethod FindPaymentMethodById
  simp only [hid, if_false, hget]
  rcases c.post s1 params "estimate" { r with SyncToken := existing.SyncToken } with ⟨s2, res⟩
  cases res <;> rfl

/-- The run of `UpdateJournalEntry` after a successful fetch: one `post` of
the caller's record with the fetched token. -/
theorem UpdateJournalEntry_fetched {σ Prm E D Ln Ref Tax M : Type}
    (c : RecordClient σ Prm E (JournalEntry D Ln Ref Tax M)) (params : Prm)
    (r existing : JournalEntry D Ln Ref Tax M) (id : String)
    (s s1 : σ) (hid : r.Id = some id)
    (hget : c.get s params ("journalentry/" ++ id) = (s1, .ok existing)) :
    UpdateJournalEntry c params r s
      = { result := passOn (c.post s1 params "journalentry"
            { r with SyncToken := existing.SyncToken }).2
          record := { r with SyncToken := existing.SyncToken }
          calls := [.get ("journalentry/" ++ id),
            .post "journalentry" { r with SyncToken := existing.SyncToken }]
          state := (c.post s1 params "journalentry"
            { r with SyncToken := existing.SyncToken }).1 } := by
  obtain ⟨tok, dom, date, sparse, line, cur, adj, rid, tax, md, gtc, doc, note, rate⟩ := r
  simp only at hid
  subst hid
  unfold UpdateJournalEntry FindJournalEntryById
  simp only [hget]
  rcases c.post s1 params "journalentry"
    { SyncToken := existing.SyncToken, Domain := dom, TxnDate := date, Sparse := sparse,
      Line := line, CurrencyRef := cur, Adjustment := adj, Id := some id, TxnTaxDetail := tax,
      MetaData := md, GlobalTaxCalculation := gtc, DocNumber := doc, PrivateNote := note,
      ExchangeRate := rate } with ⟨s2, res⟩
  cases res <;> rfl

/-- The calls a run of `UpdatePaymentMethod` lists are the calls the transport
receives, in the same order: a transport that writes its calls down ends with
that list. -/
theorem UpdatePaymentMethod_recorded {σ Prm E M : Type}
    (c : RecordClient σ Prm E (PaymentMethod M)) (params : Prm) (r : PaymentMethod M) (s : σ)
    (log : List (RecordCall (PaymentMethod M))) :
    (UpdatePaymentMethod (recordingClient c) params r (s, log)).state
      = ((UpdatePaymentMethod c params r s).state,
          log ++ (UpdatePaymentMethod c params r s).calls) ∧
    (UpdatePaymentMethod (recordingClient c) params r (s, log)).result
      = (UpdatePaymentMethod c params r s).result := by
  unfold UpdatePaymentMethod FindPaymentMethodById
  by_cases hid : r.Id = ""
  · simp [hid]
  · simp only [hid, if_false, recordingClient]
    rcases c.get s params ("paymentmethod/" ++ r.Id) with ⟨s1, res⟩
    cases res with
    | error err => simp
    | ok existing =>
      simp only
      rcases c.post s1 params "estimate" { r with SyncToken := existing.SyncToken } with ⟨s2, res2⟩
      cases res2 <;> simp

/-- The calls a run of `UpdateJournalEntry` lists are the calls the transport
receives, in the same order. -/
theorem UpdateJournalEntry_recorded {σ Prm E D Ln Ref Tax M : Type}
    (c : RecordClient σ Prm E (JournalEntry D Ln Ref Tax M)) (params : Prm)
    (r : JournalEntry D Ln Ref Tax M) (s : σ)
    (log : List (RecordCall (JournalEntry D Ln Ref Tax M))) :
    (UpdateJournalEntry (recordingClient c) params r (s, log)).state
      = ((UpdateJournalEntry c params r s).state,
          log ++ (UpdateJournalEntry c params r s).calls) ∧
    (UpdateJournalEntry (recordingClient c) params r (s, log)).result
      = (UpdateJournalEntry c params r s).result := by
  obtain ⟨tok, dom, date, sparse, line, cur, adj, rid, tax, md, gtc, doc, note, rate⟩ := r
  unfold UpdateJournalEntry FindJournalEntryById
  cases rid with
  | none => simp
  | some id =>
    simp only [recordingClient]
    rcases c.get s params ("journalentry/" ++ id) with ⟨s1, res⟩
    cases res with
    | error err => simp
    | ok existing =>
      simp only
      rcases c.post s1 params "journalentry"
        { SyncToken := existing.SyncToken, Domain := dom, TxnDate := date, Sparse := sparse,
          Line := line, CurrencyRef := cur, Adjustment := adj, Id := some id, TxnTaxDetail := tax,
          MetaData := md, GlobalTaxCalculation := gtc, DocNumber := doc, PrivateNote := note,
          ExchangeRate := rate } with ⟨s2, res2⟩
      cases res2 <;> simp

/-- The calls a run of `CreatePaymentMethod` lists are the calls the transport
receives. -/
theorem CreatePaymentMethod_recorded {σ Prm E M : Type}
    (c : RecordClient σ Prm E (PaymentMethod M)) (params : Prm) (r : PaymentMethod M) (s : σ)
    (log : List (RecordCall (PaymentMethod M))) :
    (CreatePaymentMethod (recordingClient c) params r (s, log)).state
      = ((CreatePaymentMethod c params r s).state,
          log ++ (CreatePaymentMethod c params r s).calls) := by
  unfold CreatePaymentMethod
  simp only [recordingClient]
  rcases c.post s params "paymentmethod" r with ⟨s1, res⟩
  cases res <;> simp

/-- The calls a run of `CreateJournalEntry` lists are the calls the transport
receives. -/
theorem CreateJournalEntry_recorded {σ Prm E D Ln Ref Tax M : Type}
    (c : RecordClient σ Prm E (JournalEntry D Ln Ref Tax M)) (params : Prm)
    (r : JournalEntry D Ln Ref Tax M) (s : σ)
    (log : List (RecordCall (JournalEntry D Ln Ref Tax M))) :
    (CreateJournalEntry (recordingClient c) params r (s, log)).state
      = ((CreateJournalEntry c params r s).state,
          log ++ (CreateJournalEntry c params r s).calls) := by
  unfold CreateJournalEntry
  simp only [recordingClient]
  rcases c.post s params "journalentry" r with ⟨s1, res⟩
  cases res <;> simp

/-- C3 (update token carry-over).  For every transport, every caller record
`r` that has an identifier and every successful fetch of the persisted record
`existing`: the update hands the write call the payload `r` with its version
token replaced by the one of `existing` and every other field unchanged.
Stated on the transport itself: the state and the result of the update are
those of `post` applied to that payload after the fetch, a transport that
writes down what it receives has received the fetch and then that payload, the
caller's record is left as the payload, and the run is the same whatever token
the caller's record carried before.  This holds for `UpdatePaymentMethod` and
for `UpdateJournalEntry`; the path of the write call is left open here. -/
theorem C3_update_token_carry_over {σ Prm E M D Ln Ref Tax : Type} :
    (∀ (c : RecordClient σ Prm E (PaymentMethod M)) (params : Prm) (r existing : PaymentMethod M)
        (s s1 : σ),
      r.Id ≠ "" → c.get s params ("paymentmethod/" ++ r.Id) = (s1, .ok existing) →
      ∃ path,
        (UpdatePaymentMethod c params r s).state
          = (c.post s1 params path { r with SyncToken := existing.SyncToken }).1 ∧
        (UpdatePaymentMethod c params r s).result
          = passOn (c.post s1 params path { r with SyncToken := existing.SyncToken }).2 ∧
        (UpdatePaymentMethod (recordingClient c) params r (s, [])).state.2
          = [.get ("paymentmethod/" ++ r.Id),
             .post path { r with SyncToken := existing.SyncToken }] ∧
        (UpdatePaymentMethod c params r s).calls
          = [.get ("paymentmethod/" ++ r.Id),
             .post path { r with SyncToken := existing.SyncToken }] ∧
        (UpdatePaymentMethod c params r s).record = { r with SyncToken := existing.SyncToken } ∧
        ∀ token, UpdatePaymentMethod c params { r with SyncToken := token } s
          = UpdatePaymentMethod c params r s) ∧
    (∀ (c : RecordClient σ Prm E (JournalEntry D Ln Ref Tax M)) (params : Prm)
        (r existing : JournalEntry D Ln Ref Tax M) (id : String) (s s1 : σ),
      r.Id = some id → c.get s params ("journalentry/" ++ id) = (s1, .ok existing) →
      ∃ path,
        (UpdateJournalEntry c params r s).state
          = (c.post s1 params path { r with SyncToken := existing.SyncToken }).1 ∧
        (UpdateJournalEntry c params r s).result
          = passOn (c.post s1 params path { r with SyncToken := existing.SyncToken }).2 ∧
        (UpdateJournalEntry (recordingClient c) params r (s, [])).state.2
          = [.get ("journalentry/" ++ id),
             .post path { r with SyncToken := existing.SyncToken }] ∧
        (UpdateJournalEntry c params r s).calls
          = [.get ("journalentry/" ++ id),
             .post path { r with SyncToken := existing.SyncToken }] ∧
        (UpdateJournalEntry c params r s).record = { r with SyncToken := existing.SyncToken } ∧
        ∀ token, UpdateJournalEntry c params { r with SyncToken := token } s
          = UpdateJournalEntry c params r s) := by
  refine ⟨?_, ?_⟩
  · intro c params r existing s s1 hid hget
    have hrec : (recordingClient c).get (s, []) params ("paymentmethod/" ++ r.Id)
        = ((s1, [.get ("paymentmethod/" ++ r.Id)]), .ok existing) := by
      simp [recordingClient, hget]
    refine ⟨"estimate", ?_, ?_, ?_, ?_, ?_, ?_⟩
    · rw [UpdatePaymentMethod_fetched c params r existing s s1 hid hget]
    · rw [UpdatePaymentMethod_fetched c params r existing s s1 hid hget]
    · rw [UpdatePaymentMethod_fetched (recordingClient c) params r existing _ _ hid hrec]
      simp [recordingClient]
    · rw [UpdatePaymentMethod_fetched c params r existing s s1 hid hget]
    · rw [UpdatePaymentMethod_fetched c params r existing s s1 hid hget]
    · intro token
      rw [UpdatePaymentMethod_fetched c params r existing s s1 hid hget,
        UpdatePaymentMethod_fetched c params { r with SyncToken := token } existing s s1 hid hget]
  · intro c params r existing id s s1 hid hget
    have hrec : (recordingClient c).get (s, []) params ("journalentry/" ++ id)
        = ((s1, [.get ("journalentry/" ++ id)]), .ok existing) := by
      simp [recordingClient, hget]
    refine ⟨"journalentry", ?_, ?_, ?_, ?_, ?_, ?_⟩
    · rw [UpdateJournalEntry_fetched c params r existing id s s1 hid hget]
    · rw [UpdateJournalEntry_fetched c params r existing id s s1 hid hget]
    · rw [UpdateJournalEntry_fetched (recordingClient c) params r existing id _ _ hid hrec]
      simp [recordingClient]
    · rw [UpdateJournalEntry_fetched c params r existing id s s1 hid hget]
    · rw [UpdateJournalEntry_fetched c params r existing id s s1 hid hget]
    · intro token
      rw [UpdateJournalEntry_fetched c params r existing id s s1 hid hget,
        UpdateJournalEntry_fetched c params { r with SyncToken := token } existing id s s1
          hid hget]

/-- Witness of C3: the persisted record has token "7", the caller's record has
token "3"; the backend stores what it is posted: after the update it stores
the caller's record with token "7", which is also what the update returns and
what the caller's record has become, for a payment method and for a journal
entry. -/
theorem C3_update_token_carry_over_witness :
    (samplePaymentMethod "42" "Cash" "3").Id ≠ "" ∧
    (UpdatePaymentMethod (storeClient : RecordClient _ Unit String _) ()
        (samplePaymentMethod "42" "Cash" "3") (samplePaymentMethod "42" "Check" "7")).state
      = samplePaymentMethod "42" "Cash" "7" ∧
    (UpdatePaymentMethod (storeClient : RecordClient _ Unit String _) ()
        (samplePaymentMethod "42" "Cash" "3") (samplePaymentMethod "42" "Check" "7")).result
      = .ok (samplePaymentMethod "42" "Cash" "7") ∧
    (UpdatePaymentMethod (storeClient : RecordClient _ Unit String _) ()
        (samplePaymentMethod "42" "Cash" "3") (samplePaymentMethod "42" "Check" "7")).record
      = samplePaymentMethod "42" "Cash" "7" ∧
    (UpdateJournalEntry (storeClient : RecordClient _ Unit String _) ()
        (sampleJournalEntry (some "9") (some "3")) (sampleJournalEntry (some "9") (some "7"))).state
      = sampleJournalEntry (some "9") (some "7") ∧
    (UpdateJournalEntry (storeClient : RecordClient _ Unit String _) ()
        (sampleJournalEntry (some "9") (some "3"))
        (sampleJournalEntry (some "9") (some "7"))).result
      = .ok (sampleJournalEntry (some "9") (some "7")) :=
  ⟨by decide,
    Exists.elim
      ((@C3_update_token_carry_over (PaymentMethod Unit) Unit String Unit Unit Unit Unit
        Unit).1 storeClient ()
        (samplePaymentMethod "42" "Cash" "3") (samplePaymentMethod "42" "Check" "7")
        (samplePaymentMethod "42" "Check" "7") (samplePaymentMethod "42" "Check" "7")
        (by decide) rfl)
      (fun _ h => ⟨h.1, h.2.1, h.2.2.2.2.1,
        Exists.elim
          ((@C3_update_token_carry_over (JournalEntry Unit Unit Unit Unit Unit) Unit String
            Unit Unit Unit Unit Unit).2 storeClient ()
            (sampleJournalEntry (some "9") (some "3")) (sampleJournalEntry (some "9") (some "7"))
            "9" (sampleJournalEntry (some "9") (some "7"))
            (sampleJournalEntry (some "9") (some "7")) rfl rfl)
          (fun _ g => ⟨g.1, g.2.1⟩)⟩)⟩

/-- C4 (missing identifier).  For every payment method whose identifier is the
empty string and every journal entry whose identifier is the nil pointer, the
update returns the missing-identifier error and no record, issues no call,
leaves the transport untouched and leaves the caller's record unchanged. -/
theorem C4_missing_identifier {σ Prm E M D Ln Ref Tax : Type} :
    (∀ (c : RecordClient σ Prm E (PaymentMethod M)) (params : Prm) (r : PaymentMethod M) (s : σ),
      r.Id = "" →
      (UpdatePaymentMethod c params r s).result = .error (.errorsNew "missing estimate id") ∧
      (UpdatePaymentMethod c params r s).calls = [] ∧
      (UpdatePaymentMethod c params r s).record = r ∧
      (UpdatePaymentMethod c params r s).state = s) ∧
    (∀ (c : RecordClient σ Prm E (JournalEntry D Ln Ref Tax M)) (params : Prm)
        (r : JournalEntry D Ln Ref Tax M) (s : σ),
      r.Id = none →
      (UpdateJournalEntry c params r s).result = .error (.errorsNew "missing entry id") ∧
      (UpdateJournalEntry c params r s).calls = [] ∧
      (UpdateJournalEntry c params r s).record = r ∧
      (UpdateJournalEntry c params r s).state = s) := by
  refine ⟨?_, ?_⟩
  · intro c params r s hid
    unfold UpdatePaymentMethod
    simp [hid]
  · intro c params r s hid
    unfold UpdateJournalEntry
    simp [hid]

/-- Witness of C4: a journal entry without identifier is rejected with no call
issued. -/
theorem C4_missing_identifier_witness :
    (sampleJournalEntry none (some "3")).Id = none ∧
    (UpdateJournalEntry storeClient () (sampleJournalEntry none (some "3"))
        (sampleJournalEntry (some "9") (some "7"))).result
      = .error (.errorsNew "missing entry id") ∧
    (UpdateJournalEntry storeClient () (sampleJournalEntry none (some "3"))
        (sampleJournalEntry (some "9") (some "7"))).calls = [] :=
  ⟨rfl,
    ((@C4_missing_identifier (JournalEntry Unit Unit Unit Unit Unit) Unit String Unit Unit
      Unit Unit Unit).2 storeClient () (sampleJournalEntry none (some "3"))
      (sampleJournalEntry (some "9") (some "7")) rfl).1,
    ((@C4_missing_identifier (JournalEntry Unit Unit Unit Unit Unit) Unit String Unit Unit
      Unit Unit Unit).2 storeClient () (sampleJournalEntry none (some "3"))
      (sampleJournalEntry (some "9") (some "7")) rfl).2.1⟩

/-- C8, the code at the failing input.  `CreatePaymentMethod` posts to
`paymentmethod`; `UpdatePaymentMethod` fetches `paymentmethod/42` and then
posts to `estimate`, not to `paymentmethod`; `UpdateJournalEntry` fetches
`journalentry/9` and posts to `journalentry`, the path `CreateJournalEntry`
posts to. -/
theorem C8_UpdatePaymentMethod_posts_to_estimate :
    (CreatePaymentMethod (storeClient : RecordClient _ Unit String _) ()
        (samplePaymentMethod "" "Cash" "") (samplePaymentMethod "" "" "")).calls
      = [.post "paymentmethod" (samplePaymentMethod "" "Cash" "")] ∧
    (UpdatePaymentMethod (storeClient : RecordClient _ Unit String _) ()
        (samplePaymentMethod "42" "Cash" "3") (samplePaymentMethod "42" "Check" "7")).calls
      = [.get "paymentmethod/42", .post "estimate" (samplePaymentMethod "42" "Cash" "7")] ∧
    (CreateJournalEntry (storeClient : RecordClient _ Unit String _) ()
        (sampleJournalEntry none none) (sampleJournalEntry none none)).calls
      = [.post "journalentry" (sampleJournalEntry none none)] ∧
    (UpdateJournalEntry (storeClient : RecordClient _ Unit String _) ()
        (sampleJournalEntry (some "9") (some "3")) (sampleJournalEntry (some "9") (some "7"))).calls
      = [.get "journalentry/9",
         .post "journalentry" (sampleJournalEntry (some "9") (some "7"))] := by
  decide


/-! ## Reading back what `json.Marshal` writes -/

theorem skipSpace_length (l : List Char) : (skipSpace l).length ≤ l.length := by
  induction l with
  | nil => simp [skipSpace]
  | cons c cs ih =>
    simp only [skipSpace]
    split
    · simp only [List.length_cons]; omega
    · simp

theorem skipSpace_eq_cons (l rest : List Char) (c : Char) (h : skipSpace l = c :: rest) :
    rest.length < l.length := by
  have := skipSpace_length l
  rw [h] at this
  simp only [List.length_cons] at this
  omega

theorem unescapeU_length (u : Nat) (l : List Char) : (unescapeU u l).2.length ≤ l.length := by
  unfold unescapeU
  split
  · split
    · split
      · split
        · split
          · simp only [List.length_cons]; omega
          · simp
        · simp
      · simp
    · simp
  · simp

theorem parseStr_rest : ∀ (budget : Nat) (l s r : List Char),
    parseStr budget l = some (s, r) → r.length < l.length := by
  intro budget
  induction budget with
  | zero => intro l s r h; simp [parseStr] at h
  | succ b ih =>
    intro l s r h
    unfold parseStr at h
    repeat' split at h
    all_goals
      first
      | (simp at h; done)
      | (simp only [Option.some.injEq, Prod.mk.injEq] at h
         obtain ⟨_, rfl⟩ := h
         first
         | (simp only [List.length_cons]; omega)
         | (cases ‹b + 1 = _›
            have hr := ih _ _ _ (by assumption)
            first
            | (have hlen := lt_of_lt_of_le hr (unescapeU_length _ _)
               simp only [List.length_cons]; omega)
            | (simp only [List.length_cons]; omega)))


theorem parseStr_budget : ∀ (b1 b2 : Nat) (l : List Char),
    l.length < b1 → l.length < b2 → parseStr b1 l = parseStr b2 l := by
  intro b1
  induction b1 with
  | zero => intro b2 l h1 _; omega
  | succ b ih =>
    intro b2 l h1 h2
    obtain ⟨b2, rfl⟩ : ∃ k, b2 = k + 1 := ⟨b2 - 1, by omega⟩
    cases l with
    | nil => simp [parseStr]
    | cons c rest =>
      simp only [List.length_cons] at h1 h2
      unfold parseStr
      have e1 : parseStr b rest = parseStr b2 rest := ih b2 rest (by omega) (by omega)
      rw [e1]
      split
      · rfl
      · split
        · cases rest with
          | nil => rfl
          | cons e rest1 =>
            simp only [List.length_cons] at h1 h2
            have e2 : parseStr b rest1 = parseStr b2 rest1 := ih b2 rest1 (by omega) (by omega)
            simp only [e2]
            split
            · split
              · rename_i h1c h2c h3c h4c rest2
                simp only [List.length_cons] at h1 h2
                split
                · rfl
                · rename_i u hu
                  have := unescapeU_length u rest2
                  rw [ih b2 (unescapeU u rest2).2 (by omega) (by omega)]
              · rfl
            · rfl
        · rfl


theorem takeDigits_length (l : List Char) : (takeDigits l).2.length ≤ l.length := by
  induction l with
  | nil => simp [takeDigits]
  | cons c cs ih =>
    simp only [takeDigits]
    split
    · simp only [List.length_cons]; omega
    · simp

theorem takeDigits_eq (l ds r : List Char) (h : takeDigits l = (ds, r)) :
    r.length ≤ l.length := by
  have := takeDigits_length l
  rw [h] at this
  exact this

theorem parseFraction_rest (l x r : List Char) (h : parseFraction l = some (x, r)) :
    r.length ≤ l.length := by
  unfold parseFraction at h
  repeat' split at h
  all_goals
    first
    | (simp at h; done)
    | (simp only [Option.some.injEq, Prod.mk.injEq] at h
       obtain ⟨_, rfl⟩ := h
       first
       | (simp only [List.length_cons, List.length_nil]; omega)
       | (have hlen := takeDigits_eq _ _ _ (by assumption)
          simp only [List.length_cons] at *; omega))

theorem parseExponent_rest (l x r : List Char) (h : parseExponent l = some (x, r)) :
    r.length ≤ l.length := by
  unfold parseExponent at h
  repeat' split at h
  all_goals
    first
    | (simp at h; done)
    | (simp only [Option.some.injEq, Prod.mk.injEq] at h
       obtain ⟨_, rfl⟩ := h
       first
       | (simp only [List.length_cons, List.length_nil]; omega)
       | (have hlen := takeDigits_eq _ _ _ (by assumption)
          simp only [List.length_cons] at *; omega))

theorem parseUnsigned_rest (l x r : List Char) (h : parseUnsigned l = some (x, r)) :
    r.length < l.length := by
  unfold parseUnsigned at h
  repeat' split at h
  all_goals
    first
    | (simp at h; done)
    | (simp only [Option.some.injEq, Prod.mk.injEq] at h
       obtain ⟨_, rfl⟩ := h
       have h1 := parseFraction_rest _ _ _ (by assumption)
       have h2 := parseExponent_rest _ _ _ (by assumption)
       first
       | (simp only [List.length_cons] at *; omega)
       | (have hlen := le_trans h1 (takeDigits_length _)
          simp only [List.length_cons] at *; omega))

theorem parseNumber_rest (l x r : List Char) (h : parseNumber l = some (x, r)) :
    r.length < l.length := by
  unfold parseNumber at h
  repeat' split at h
  all_goals
    first
    | (simp at h; done)
    | (simp only [Option.some.injEq, Prod.mk.injEq] at h
       obtain ⟨_, rfl⟩ := h
       have h1 := parseUnsigned_rest _ _ _ (by assumption)
       simp only [List.length_cons] at *; omega)
    | (have h1 := parseUnsigned_rest _ _ _ h
       simp only [List.length_cons] at *; omega)


theorem parse_rest : ∀ (budget : Nat),
    (∀ (d : Nat) (l : List Char) (v : JSON) (r : List Char),
      parseValue budget d l = some (v, r) → r.length < l.length) ∧
    (∀ (d : Nat) (l : List Char) (vs : List JSON) (r : List Char),
      parseElements budget d l = some (vs, r) → r.length < l.length) ∧
    (∀ (d : Nat) (l : List Char) (ms : List (String × JSON)) (r : List Char),
      parseMembers budget d l = some (ms, r) → r.length < l.length) := by
  intro budget
  induction budget with
  | zero =>
    refine ⟨?_, ?_, ?_⟩ <;> intro d l v r h
    · simp [parseValue] at h
    · simp [parseElements] at h
    · simp [parseMembers] at h
  | succ b ih =>
    obtain ⟨ih1, ih2, ih3⟩ := ih
    refine ⟨?_, ?_, ?_⟩ <;> intro d l v r h
    · unfold parseValue at h
      repeat' split at h
      all_goals
        first
        | (simp at h; done)
        | (simp only [Option.some.injEq, Prod.mk.injEq] at h
           obtain ⟨_, rfl⟩ := h
           saturate [skipSpace_eq_cons, parseStr_rest, parseNumber_rest, *]
           try simp only [List.length_cons] at *
           omega)
    · unfold parseElements at h
      repeat' split at h
      all_goals
        first
        | (simp at h; done)
        | (simp only [Option.some.injEq, Prod.mk.injEq] at h
           obtain ⟨_, rfl⟩ := h
           saturate [skipSpace_eq_cons, *]
           try simp only [List.length_cons] at *
           omega)
    · unfold parseMembers at h
      repeat' split at h
      all_goals
        first
        | (simp at h; done)
        | (simp only [Option.some.injEq, Prod.mk.injEq] at h
           obtain ⟨_, rfl⟩ := h
           saturate [skipSpace_eq_cons, parseStr_rest, *]
           try simp only [List.length_cons] at *
           omega)


theorem parse_budget : ∀ (b1 : Nat),
    (∀ (b2 d : Nat) (l : List Char), l.length < b1 → l.length < b2 →
      parseValue b1 d l = parseValue b2 d l) ∧
    (∀ (b2 d : Nat) (l : List Char), l.length < b1 → l.length < b2 →
      parseElements b1 d l = parseElements b2 d l) ∧
    (∀ (b2 d : Nat) (l : List Char), l.length < b1 → l.length < b2 →
      parseMembers b1 d l = parseMembers b2 d l) := by
  intro b1
  induction b1 with
  | zero => exact ⟨fun _ _ _ h _ => by omega, fun _ _ _ h _ => by omega, fun _ _ _ h _ => by omega⟩
  | succ b ih =>
    obtain ⟨ih1, ih2, ih3⟩ := ih
    refine ⟨?_, ?_, ?_⟩
    · intro b2 d l h1 h2
      obtain ⟨k, rfl⟩ : ∃ k, b2 = k + 1 := ⟨b2 - 1, by omega⟩
      unfold parseValue
      cases hs : skipSpace l with
      | nil => rfl
      | cons c rest =>
        have hrest := skipSpace_eq_cons _ _ _ hs
        simp only
        by_cases hq : c = quote
        · simp only [hq, if_true]
          rw [parseStr_budget b k rest (by omega) (by omega)]
        · simp only [hq, if_false]
          by_cases ha : c = '['
          · simp only [ha, if_true]
            by_cases hdepth : maxNestingDepth ≤ d
            · simp only [hdepth, if_true]
            · simp only [hdepth, if_false]
              cases hs1 : skipSpace rest with
              | nil => rfl
              | cons c1 rest1 =>
                have hrest1 := skipSpace_length rest
                rw [hs1] at hrest1
                simp only [List.length_cons] at hrest1
                simp only
                by_cases hc1 : c1 = ']'
                · simp only [hc1, if_true]
                · simp only [hc1, if_false]
                  rw [ih1 k (d + 1) (c1 :: rest1) (by simp only [List.length_cons]; omega)
                    (by simp only [List.length_cons]; omega)]
                  cases hv : parseValue k (d + 1) (c1 :: rest1) with
                  | none => rfl
                  | some p =>
                    obtain ⟨v, r1⟩ := p
                    have hr1 := (parse_rest k).1 _ _ _ _ hv
                    simp only [List.length_cons] at hr1
                    simp only
                    rw [ih2 k (d + 1) r1 (by omega) (by omega)]
          · simp only [ha, if_false]
            by_cases ho : c = openBrace
            · simp only [ho, if_true]
              by_cases hdepth : maxNestingDepth ≤ d
              · simp only [hdepth, if_true]
              · simp only [hdepth, if_false]
                cases hs1 : skipSpace rest with
                | nil => rfl
                | cons c1 rest1 =>
                  have hrest1 := skipSpace_eq_cons _ _ _ hs1
                  simp only
                  by_cases hc1 : c1 = closeBrace
                  · simp only [hc1, if_true]
                  · simp only [hc1, if_false]
                    by_cases hc2 : c1 = quote
                    · simp only [hc2, if_true]
                      rw [parseStr_budget b k rest1 (by omega) (by omega)]
                      cases hk : parseStr k rest1 with
                      | none => rfl
                      | some p =>
                        obtain ⟨key, r1⟩ := p
                        have hr1 := parseStr_rest _ _ _ _ hk
                        simp only
                        cases hs2 : skipSpace r1 with
                        | nil => rfl
                        | cons c2 r2 =>
                          have hr2 := skipSpace_eq_cons _ _ _ hs2
                          simp only
                          by_cases hc3 : c2 = ':'
                          · simp only [hc3, if_true]
                            rw [ih1 k (d + 1) r2 (by omega) (by omega)]
                            cases hv : parseValue k (d + 1) r2 with
                            | none => rfl
                            | some p =>
                              obtain ⟨v, r3⟩ := p
                              have hr3 := (parse_rest k).1 _ _ _ _ hv
                              simp only
                              rw [ih3 k (d + 1) r3 (by omega) (by omega)]
                          · simp only [hc3, if_false]
                    · simp only [hc2, if_false]
            · simp only [ho, if_false]
    · intro b2 d l h1 h2
      obtain ⟨k, rfl⟩ : ∃ k, b2 = k + 1 := ⟨b2 - 1, by omega⟩
      unfold parseElements
      cases hs : skipSpace l with
      | nil => rfl
      | cons c rest =>
        have hrest := skipSpace_eq_cons _ _ _ hs
        simp only
        by_cases hq : c = ']'
        · simp only [hq, if_true]
        · simp only [hq, if_false]
          by_cases ha : c = ','
          · simp only [ha, if_true]
            rw [ih1 k d rest (by omega) (by omega)]
            cases hv : parseValue k d rest with
            | none => rfl
            | some p =>
              obtain ⟨v, r1⟩ := p
              have hr1 := (parse_rest k).1 _ _ _ _ hv
              simp only
              rw [ih2 k d r1 (by omega) (by omega)]
          · simp only [ha, if_false]
    · intro b2 d l h1 h2
      obtain ⟨k, rfl⟩ : ∃ k, b2 = k + 1 := ⟨b2 - 1, by omega⟩
      unfold parseMembers
      cases hs : skipSpace l with
      | nil => rfl
      | cons c rest =>
        have hrest := skipSpace_eq_cons _ _ _ hs
        simp only
        by_cases hq : c = closeBrace
        · simp only [hq, if_true]
        · simp only [hq, if_false]
          by_cases ha : c = ','
          · simp only [ha, if_true]
            cases hs1 : skipSpace rest with
            | nil => rfl
            | cons c1 rest1 =>
              have hrest1 := skipSpace_eq_cons _ _ _ hs1
              simp only
              by_cases hc2 : c1 = quote
              · simp only [hc2, if_true]
                rw [parseStr_budget b k rest1 (by omega) (by omega)]
                cases hk : parseStr k rest1 with
                | none => rfl
                | some p =>
                  obtain ⟨key, r1⟩ := p
                  have hr1 := parseStr_rest _ _ _ _ hk
                  simp only
                  cases hs2 : skipSpace r1 with
                  | nil => rfl
                  | cons c2 r2 =>
                    have hr2 := skipSpace_eq_cons _ _ _ hs2
                    simp only
                    by_cases hc3 : c2 = ':'
                    · simp only [hc3, if_true]
                      rw [ih1 k d r2 (by omega) (by omega)]
                      cases hv : parseValue k d r2 with
                      | none => rfl
                      | some p =>
                        obtain ⟨v, r3⟩ := p
                        have hr3 := (parse_rest k).1 _ _ _ _ hv
                        simp only
                        rw [ih3 k d r3 (by omega) (by omega)]
                    · simp only [hc3, if_false]
              · simp only [hc2, if_false]
          · simp only [ha, if_false]

/-- Any budget above the length of the text gives the result `parseJSON`
computes. -/
theorem parseJSON_budget (text : String) (budget : Nat) (hb : text.data.length < budget) :
    parseJSON text
      = match parseValue budget 0 text.data with
        | none => none
        | some (v, rest) =>
          match skipSpace rest with
          | [] => some v
          | _ :: _ => none := by
  unfold parseJSON
  rw [(parse_budget (text.data.length + 1)).1 budget 0 text.data (by omega) hb]



/-! ## How many sub-errors a decoded `Failure` has -/

theorem keyMatches_exclusive (k a b : String) (hab : keyMatches a b = false)
    (ha : keyMatches k a = true) : keyMatches k b = false := by
  unfold keyMatches at *
  have : k.data.map foldChar = a.data.map foldChar := by simpa using ha
  rw [this]
  exact hab

theorem membersNamed_cons_true (name k : String) (v : JSON) (rest : List (String × JSON))
    (h : keyMatches k name = true) :
    membersNamed name ((k, v) :: rest) = v :: membersNamed name rest := by
  simp [membersNamed, h]

theorem membersNamed_cons_false (name k : String) (v : JSON) (rest : List (String × JSON))
    (h : keyMatches k name = false) :
    membersNamed name ((k, v) :: rest) = membersNamed name rest := by
  simp [membersNamed, h]

/-- Decoding the members of the top-level object is decoding the members named
`Fault` into the fault and the members named `time` into the date. -/
theorem decodeFailureMembers_fields {Date : Type} (D : DateCodec Date) :
    ∀ (ms : List (String × JSON)) (cur : FailureState Date),
      decodeMembers (decodeFailureMember D) cur ms
        = ((membersNamed "Fault" ms).foldlM decodeFault cur.Fault).bind fun f =>
          ((membersNamed "time" ms).foldlM D.decode cur.Time).bind fun t =>
          some { Fault := f, Time := t } := by
  intro ms
  induction ms with
  | nil => intro cur; simp [decodeMembers, membersNamed]
  | cons km rest ih =>
    intro cur
    obtain ⟨k, v⟩ := km
    simp only [decodeMembers, decodeFailureMember]
    by_cases h1 : keyMatches k "Fault" = true
    · have h2 := keyMatches_exclusive k "Fault" "time" (by decide) h1
      rw [membersNamed_cons_true _ _ _ _ h1, membersNamed_cons_false _ _ _ _ h2]
      simp only [h1, if_true, List.foldlM_cons, Option.bind_eq_bind]
      cases decodeFault cur.Fault v with
      | none => simp
      | some s => simp [ih]
    · simp only [h1, Bool.false_eq_true, if_false]
      have h1f : keyMatches k "Fault" = false := by simpa using h1
      by_cases h2 : keyMatches k "time" = true
      · rw [membersNamed_cons_false _ _ _ _ h1f, membersNamed_cons_true _ _ _ _ h2]
        simp only [h2, if_true, List.foldlM_cons, Option.bind_eq_bind]
        cases D.decode cur.Time v with
        | none =>
          simp only [Option.map_none', Option.none_bind]
          cases List.foldlM decodeFault cur.Fault (membersNamed "Fault" rest) <;> rfl
        | some s =>
          simp only [Option.map_some', Option.some_bind, ih]
      · have h2f : keyMatches k "time" = false := by simpa using h2
        rw [membersNamed_cons_false _ _ _ _ h1f, membersNamed_cons_false _ _ _ _ h2f]
        simp only [h2, Bool.false_eq_true, if_false, ih]


/-! ## The decoder reads a fault envelope as its members say -/

/-- `parseFailure` on an uncompressed body that was read to the end. -/
theorem parseFailure_plain {Date : Type} (D : DateCodec Date) (gunzip : Gunzip) (s : Int)
    (encoding b : String) (henc : encoding ≠ "gzip") :
    parseFailure D gunzip { StatusCode := s, ContentEncoding := encoding, Body := .ok b }
      = match unmarshalFailure D b with
        | none => .text (Itoa s ++ " " ++ b)
        | some errStruct => .failure errStruct := by
  simp [parseFailure, henc]

/-- A body that is not JSON text is rejected by `json.Unmarshal`. -/
theorem unmarshalFailure_not_json {Date : Type} (D : DateCodec Date) (b : String)
    (h : parseJSON b = none) : unmarshalFailure D b = none := by
  simp [unmarshalFailure, h]

/-- A body whose JSON value is an array, a string, a number or a boolean is
rejected by `json.Unmarshal` into a `Failure`. -/
theorem unmarshalFailure_not_object {Date : Type} (D : DateCodec Date) (b : String) (j : JSON)
    (h : parseJSON b = some j) (hj : j.isObjectOrNull = false) : unmarshalFailure D b = none := by
  cases j with
  | obj ms => simp [JSON.isObjectOrNull] at hj
  | null => simp [JSON.isObjectOrNull] at hj
  | bool v => simp [unmarshalFailure, h, decodeFailure]
  | num t => simp [unmarshalFailure, h, decodeFailure]
  | str t => simp [unmarshalFailure, h, decodeFailure]
  | arr items => simp [unmarshalFailure, h, decodeFailure]

/-- The body `null` is accepted by `json.Unmarshal` and leaves the zero
`Failure`. -/
theorem unmarshalFailure_null {Date : Type} (D : DateCodec Date) (b : String)
    (h : parseJSON b = some .null) : unmarshalFailure D b = some (Failure.zero D) := by
  simp [unmarshalFailure, h, decodeFailure, Failure.zero]

/-- A body whose JSON value is an object: `json.Unmarshal` decodes the members
named `Fault` into the fault and the members named `time` into the date, and
rejects the body exactly when one of the two decodings reports an error. -/
theorem unmarshalFailure_object {Date : Type} (D : DateCodec Date) (b : String)
    (ms : List (String × JSON)) (h : parseJSON b = some (.obj ms)) :
    unmarshalFailure D b
      = ((membersNamed "Fault" ms).foldlM decodeFault (FailureState.zero D).Fault).bind fun f =>
        ((membersNamed "time" ms).foldlM D.decode D.zero).bind fun t =>
        some { Fault := { Error := f.Error.items, «Type» := f.«Type» }, Time := t } := by
  simp only [unmarshalFailure, h, decodeFailure, decodeFailureMembers_fields]
  cases List.foldlM decodeFault (FailureState.zero D).Fault (membersNamed "Fault" ms) with
  | none => rfl
  | some f =>
    cases hT : List.foldlM D.decode (FailureState.zero D).Time (membersNamed "time" ms) with
    | none =>
      have : List.foldlM D.decode D.zero (membersNamed "time" ms) = none := hT
      simp [hT, this]
    | some t =>
      have : List.foldlM D.decode D.zero (membersNamed "time" ms) = some t := hT
      simp [hT, this, FailureState.value]

/-- No member of an object names the field when no key matches it. -/
theorem membersNamed_eq_nil (name : String) :
    ∀ (ms : List (String × JSON)), (∀ m ∈ ms, keyMatches m.1 name = false) →
      membersNamed name ms = [] := by
  intro ms
  induction ms with
  | nil => intro _; rfl
  | cons m rest ih =>
    intro h
    obtain ⟨k, v⟩ := m
    have hk : keyMatches k name = false := h (k, v) (by simp)
    rw [membersNamed_cons_false _ _ _ _ hk]
    exact ih (fun m hm => h m (by simp [hm]))

/-- The text of a `Failure` is never empty. -/
theorem Failure.Error_ne_empty {Date : Type} (D : DateCodec Date) (f : Failure Date) :
    f.Error D ≠ "" := by
  intro h
  have hd := congrArg String.data h
  unfold Failure.Error marshalFailure at hd
  cases hf : D.format f.Time with
  | error err => simp [hf] at hd
  | ok time => simp [hf, renderFailure] at hd

/-- The text of the error `parseFailure` returns is never empty. -/
theorem parseFailure_Error_ne_empty {Date : Type} (D : DateCodec Date) (gunzip : Gunzip)
    (resp : Response) : (parseFailure D gunzip resp).Error D ≠ "" := by
  unfold parseFailure
  split
  · intro h
    have hd := congrArg String.data h
    simp [ErrorValue.Error] at hd
  · split
    · intro h
      have hd := congrArg String.data h
      simp [ErrorValue.Error] at hd
    · split
      · intro h
        have hd := congrArg String.data h
        simp [ErrorValue.Error] at hd
      · exact Failure.Error_ne_empty D _

/-- A body whose first character after white space cannot start a JSON value
(a letter other than `n`, `t`, `f`, or `<` as in an HTML page) is not JSON
text. -/
theorem parseJSON_rejects_text (b : String)
    (c : Char) (rest : List Char) (hs : skipSpace b.data = c :: rest)
    (h1 : c ≠ quote) (h2 : c ≠ '[') (h3 : c ≠ openBrace) (h4 : c ≠ 'n') (h5 : c ≠ 't')
    (h6 : c ≠ 'f') (h7 : c ≠ '-') (h8 : c.isDigit = false) :
    parseJSON b = none := by
  unfold parseJSON parseValue
  simp [hs, h1, h2, h3, h4, h5, h6, h7, h8]

/-- An empty or blank body is not JSON text. -/
theorem parseJSON_rejects_blank (b : String) (hs : skipSpace b.data = []) :
    parseJSON b = none := by
  unfold parseJSON parseValue
  simp [hs]

/-! ## Claims on `parseFailure` -/

set_option maxRecDepth 100000

/-- C5, counterexample: status 401 with the error object of an OAuth token
endpoint as body.  The body is JSON and no fault envelope, yet `parseFailure`
returns the zero `Failure`; its rendering is the JSON text of that zero value
(it starts with the `Fault` member and its nil `Error`), not the status code
followed by the body. -/
theorem C5_counterexample_json_object :
    (∃ j, parseJSON oauthBody = some j ∧ readEnvelope j = none) ∧
    parseFailure textDate noGunzip
        { StatusCode := 401, ContentEncoding := "", Body := .ok oauthBody }
      = .failure (Failure.zero textDate) ∧
    ("\x7b\"Fault\":\x7b\"Error\":null,\"type\":\"\"\x7d,\"time\":").data.isPrefixOf
      ((parseFailure textDate noGunzip
        { StatusCode := 401, ContentEncoding := "", Body := .ok oauthBody }).Error
        textDate).data = true ∧
    (parseFailure textDate noGunzip
        { StatusCode := 401, ContentEncoding := "", Body := .ok oauthBody }).Error textDate
      ≠ "401 " ++ oauthBody :=
  ⟨⟨.obj [("error", .str "invalid_grant")], by rfl, by decide⟩, by decide, by decide, by decide⟩

/-- C5, amended.  For every date type, status code `s` and uncompressed body
`b` that was read to the end: (1) when `b` is not JSON text, `parseFailure`
returns the error made from the decimal text of `s`, one space and `b`
verbatim, and that text is its rendering; (2) the same holds when `b` is a
JSON array, string, number or boolean; (3) when `b` is a JSON object, that
error is returned exactly when decoding the members named `Fault` into the
fault or the members named `time` into the date reports an error; (4) the
body `null` and every JSON object without a member named `Fault` or `time`
are returned as the zero `Failure`, not as that error; (5) for every
response, compressed or not, readable to the end or not, `parseFailure`
returns an error value whose rendering is not empty. -/
theorem C5_malformed_fallback {Date : Type} (D : DateCodec Date) (gunzip : Gunzip)
    (s : Int) (encoding b : String) (henc : encoding ≠ "gzip") :
    (parseJSON b = none →
      parseFailure D gunzip { StatusCode := s, ContentEncoding := encoding, Body := .ok b }
        = .text (Itoa s ++ " " ++ b) ∧
      (parseFailure D gunzip
        { StatusCode := s, ContentEncoding := encoding, Body := .ok b }).Error D
        = Itoa s ++ " " ++ b) ∧
    (∀ j, parseJSON b = some j → j.isObjectOrNull = false →
      parseFailure D gunzip { StatusCode := s, ContentEncoding := encoding, Body := .ok b }
        = .text (Itoa s ++ " " ++ b)) ∧
    (∀ ms, parseJSON b = some (.obj ms) →
      (parseFailure D gunzip { StatusCode := s, ContentEncoding := encoding, Body := .ok b }
          = .text (Itoa s ++ " " ++ b) ↔
        (membersNamed "Fault" ms).foldlM decodeFault (FailureState.zero D).Fault = none ∨
        (membersNamed "time" ms).foldlM D.decode D.zero = none)) ∧
    ((parseJSON b = some .null →
        parseFailure D gunzip { StatusCode := s, ContentEncoding := encoding, Body := .ok b }
          = .failure (Failure.zero D)) ∧
      (∀ ms, parseJSON b = some (.obj ms) →
        (∀ m ∈ ms, keyMatches m.1 "Fault" = false ∧ keyMatches m.1 "time" = false) →
        parseFailure D gunzip { StatusCode := s, ContentEncoding := encoding, Body := .ok b }
          = .failure (Failure.zero D))) ∧
    (∀ resp, (parseFailure D gunzip resp).Error D ≠ "") := by
  have hpf := parseFailure_plain D gunzip s encoding b henc
  refine ⟨?_, ?_, ?_, ⟨?_, ?_⟩, ?_⟩
  · intro h
    have hu := unmarshalFailure_not_json D b h
    have : parseFailure D gunzip { StatusCode := s, ContentEncoding := encoding, Body := .ok b }
        = .text (Itoa s ++ " " ++ b) := by rw [hpf, hu]
    exact ⟨this, by rw [this]; rfl⟩
  · intro j h hj
    rw [hpf, unmarshalFailure_not_object D b j h hj]
  · intro ms h
    rw [hpf, unmarshalFailure_object D b ms h]
    cases List.foldlM decodeFault (FailureState.zero D).Fault (membersNamed "Fault" ms) with
    | none => simp
    | some f =>
      cases List.foldlM D.decode D.zero (membersNamed "time" ms) with
      | none => simp
      | some t => simp
  · intro h
    rw [hpf, unmarshalFailure_null D b h]
  · intro ms h hk
    rw [hpf, unmarshalFailure_object D b ms h,
      membersNamed_eq_nil "Fault" ms (fun m hm => (hk m hm).1),
      membersNamed_eq_nil "time" ms (fun m hm => (hk m hm).2)]
    rfl
  · exact parseFailure_Error_ne_empty D gunzip

/-- Witness of C5: status 500 with the body `Internal Server Error`, which is
not JSON text, renders as `500 Internal Server Error`. -/
theorem C5_malformed_fallback_witness :
    parseJSON "Internal Server Error" = none ∧
    (parseFailure textDate noGunzip
      { StatusCode := 500, ContentEncoding := "", Body := .ok "Internal Server Error" }).Error
        textDate = "500 Internal Server Error" :=
  ⟨by rfl,
    ((C5_malformed_fallback textDate noGunzip 500 "" "Internal Server Error" (by decide)).1
      (by rfl)).2⟩

end Quickbooks
